import Mathlib

/-!
Verification of the CommitmentChain registry (Solidity contract) against its
natural-language specification.  The contract is shallowly embedded: addresses
are natural numbers (0 is the zero address), the storage mappings become
functions, reverts become `Except.error` carrying the revert reason, and the
event log is an explicit list.  The embedding follows the shipped source: in
particular the role / pause modifiers that are commented out in the source
(`onlyRole(POLICE_ROLE)` and `whenNotPaused` on `createCommitment`, the
`witness != initiator` check, `onlyRole(LAWYER_ROLE)` and `whenNotPaused` on
`signAsWitness`, and the role checks on freeze / unfreeze / verify) are absent
here as well.
-/

namespace CommitmentChain

/-- The roles of the contract (AccessControl).  `defaultAdmin` is
`DEFAULT_ADMIN_ROLE`; the other four are the contract's role constants. -/
inductive Role
  | defaultAdmin
  | police
  | lawyer
  | verifier
  | emergency
deriving DecidableEq, Repr

/-- The `Commitment` struct of the contract, field for field. -/
structure Commitment where
  id : Nat
  initiator : Nat
  signer : Nat
  witnesses : List Nat
  fileHash : String
  createdAt : Nat
  initiatorSigned : Bool
  signerSigned : Bool
  witnessSignedCount : Nat
  isCompleted : Bool
  isFrozen : Bool
  isVerified : Bool
deriving DecidableEq, Repr

/-- Contract storage: the id counter, the two mappings, the AccessControl
role assignment and the Pausable flag. -/
structure ChainState where
  commitmentIdCounter : Nat
  commitments : Nat → Option Commitment
  witnessSigned : Nat → Nat → Bool
  hasRole : Role → Nat → Bool
  paused : Bool

/-- The events the contract emits (ContractUpgraded is out of scope). -/
inductive Event
  | CommitmentCreated (id initiator signer : Nat) (fileHash : String) (timestamp : Nat)
  | CommitmentSigned (id signer : Nat) (role : String) (timestamp : Nat)
  | CommitmentCompleted (id timestamp : Nat)
  | CommitmentFrozen (id freezer timestamp : Nat)
  | CommitmentUnfrozen (id unfreezer timestamp : Nat)
  | CommitmentVerified (id verifier timestamp : Nat)
deriving DecidableEq, Repr

/-- Solidity's zero-initialised struct, the value a never-written mapping
slot holds. -/
def zeroCommitment : Commitment :=
  { id := 0, initiator := 0, signer := 0, witnesses := [], fileHash := "",
    createdAt := 0, initiatorSigned := false, signerSigned := false,
    witnessSignedCount := 0, isCompleted := false, isFrozen := false,
    isVerified := false }

instance : Inhabited Commitment := ⟨zeroCommitment⟩

/-- Reading `commitments[id]` as Solidity does: a never-written slot reads as
the zero struct. -/
def getStored (s : ChainState) (id : Nat) : Commitment :=
  (s.commitments id).getD zeroCommitment

/-- Write `commitments[id]`. -/
def setCommitment (s : ChainState) (id : Nat) (c : Commitment) : ChainState :=
  { s with commitments := fun j => if j = id then some c else s.commitments j }

/-- The `notFrozen` modifier's read of `commitments[id].isFrozen`. -/
def isFrozenAt (s : ChainState) (id : Nat) : Bool :=
  (getStored s id).isFrozen

/-- The `validCommitmentId` modifier's condition:
`id > 0 && id <= _commitmentIdCounter`. -/
def validCommitmentId (s : ChainState) (id : Nat) : Prop :=
  0 < id ∧ id ≤ s.commitmentIdCounter

instance (s : ChainState) (id : Nat) : Decidable (validCommitmentId s id) :=
  inferInstanceAs (Decidable (_ ∧ _))

/-- `_isWitness`: linear scan of the commitment's witness array. -/
def isWitness (s : ChainState) (id addr : Nat) : Bool :=
  (getStored s id).witnesses.contains addr

/-- The body of `createCommitment`'s witness-validation loop, in source
order per element: zero-address check, witness-vs-signer check (the
witness-vs-initiator and LAWYER_ROLE checks are commented out in the
source), then the duplicate scan over the remaining elements. -/
def checkWitnesses (signer : Nat) : List Nat → Except String Unit
  | [] => .ok ()
  | w :: rest =>
    if w = 0 then .error "CommitmentChain: Invalid witness address"
    else if w = signer then .error "CommitmentChain: Witness cannot be signer"
    else if rest.contains w then .error "CommitmentChain: Duplicate witness address"
    else checkWitnesses signer rest

/-- `_checkCompletion`: if everyone signed, set `isCompleted` and emit the
completion event.  The source has no `isCompleted` guard; it just tests the
three-way condition. -/
def checkCompletion (id ts : Nat) (s : ChainState) : ChainState × List Event :=
  match s.commitments id with
  | none => (s, [])
  | some c =>
    if c.initiatorSigned && c.signerSigned
        && (c.witnessSignedCount == c.witnesses.length) then
      (setCommitment s id { c with isCompleted := true },
       [Event.CommitmentCompleted id ts])
    else (s, [])

/-- `createCommitment`.  The `onlyRole(POLICE_ROLE)` and `whenNotPaused`
modifiers are commented out in the source, so the shipped function performs
no role or pause check.  Returns the new id alongside the new state and the
emitted events. -/
def createCommitment (sender : Nat) (fileHash : String) (signer : Nat)
    (witnesses : List Nat) (ts : Nat) (s : ChainState) :
    Except String (ChainState × List Event × Nat) :=
  if fileHash = "" then .error "CommitmentChain: File hash cannot be empty"
  else if signer = 0 then .error "CommitmentChain: Invalid signer address"
  else if signer = sender then .error "CommitmentChain: Signer cannot be initiator"
  else
    match checkWitnesses signer witnesses with
    | .error e => .error e
    | .ok () =>
      let newId := s.commitmentIdCounter + 1
      let c : Commitment :=
        { id := newId, initiator := sender, signer := signer,
          witnesses := witnesses, fileHash := fileHash, createdAt := ts,
          initiatorSigned := true, signerSigned := false,
          witnessSignedCount := 0, isCompleted := false, isFrozen := false,
          isVerified := false }
      let s1 := setCommitment { s with commitmentIdCounter := newId } newId c
      let evs := [Event.CommitmentCreated newId sender signer fileHash ts,
                  Event.CommitmentSigned newId sender "initiator" ts]
      let r := checkCompletion newId ts s1
      .ok (r.1, evs ++ r.2, newId)

/-- `signAsSigner`.  Modifier order as in the source: `whenNotPaused`,
`validCommitmentId`, `notFrozen`, then the body's requires. -/
def signAsSigner (sender id ts : Nat) (s : ChainState) :
    Except String (ChainState × List Event) :=
  if s.paused then .error "EnforcedPause"
  else if validCommitmentId s id then
    if isFrozenAt s id then .error "CommitmentChain: Commitment is frozen"
    else
      let c := getStored s id
      if sender ≠ c.signer then .error "CommitmentChain: Not the designated signer"
      else if c.signerSigned then .error "CommitmentChain: Already signed"
      else if ¬ c.initiatorSigned then .error "CommitmentChain: Initiator must sign first"
      else
        let s1 := setCommitment s id { c with signerSigned := true }
        let r := checkCompletion id ts s1
        .ok (r.1, Event.CommitmentSigned id sender "signer" ts :: r.2)
  else .error "CommitmentChain: Invalid commitment ID"

/-- `signAsWitness`.  The `onlyRole(LAWYER_ROLE)` and `whenNotPaused`
modifiers are commented out in the source; `validCommitmentId` and
`notFrozen` are live. -/
def signAsWitness (sender id ts : Nat) (s : ChainState) :
    Except String (ChainState × List Event) :=
  if validCommitmentId s id then
    if isFrozenAt s id then .error "CommitmentChain: Commitment is frozen"
    else
      let c := getStored s id
      if ¬ c.initiatorSigned then .error "CommitmentChain: Initiator must sign first"
      else if ¬ isWitness s id sender then .error "CommitmentChain: Not a designated witness"
      else if s.witnessSigned id sender then .error "CommitmentChain: Already signed"
      else
        let s1 : ChainState :=
          { s with witnessSigned := fun j a =>
              if j = id ∧ a = sender then true else s.witnessSigned j a }
        let s2 := setCommitment s1 id { c with witnessSignedCount := c.witnessSignedCount + 1 }
        let r := checkCompletion id ts s2
        .ok (r.1, Event.CommitmentSigned id sender "witness" ts :: r.2)
  else .error "CommitmentChain: Invalid commitment ID"

/-- `freezeCommitment`.  The `onlyRole(EMERGENCY_ROLE)` modifier is commented
out in the source; only `validCommitmentId` is live. -/
def freezeCommitment (sender id ts : Nat) (s : ChainState) :
    Except String (ChainState × List Event) :=
  if validCommitmentId s id then
    let c := getStored s id
    if c.isFrozen then .error "CommitmentChain: Already frozen"
    else .ok (setCommitment s id { c with isFrozen := true },
              [Event.CommitmentFrozen id sender ts])
  else .error "CommitmentChain: Invalid commitment ID"

/-- `unfreezeCommitment`. -/
def unfreezeCommitment (sender id ts : Nat) (s : ChainState) :
    Except String (ChainState × List Event) :=
  if validCommitmentId s id then
    let c := getStored s id
    if ¬ c.isFrozen then .error "CommitmentChain: Not frozen"
    else .ok (setCommitment s id { c with isFrozen := false },
              [Event.CommitmentUnfrozen id sender ts])
  else .error "CommitmentChain: Invalid commitment ID"

/-- `verifyCommitment`.  The `onlyRole(VERIFIER_ROLE)` modifier is commented
out in the source; only `validCommitmentId` is live, then the two requires
in source order (`!isVerified` first, then `isCompleted`). -/
def verifyCommitment (sender id ts : Nat) (s : ChainState) :
    Except String (ChainState × List Event) :=
  if validCommitmentId s id then
    let c := getStored s id
    if c.isVerified then .error "CommitmentChain: Already verified"
    else if ¬ c.isCompleted then .error "CommitmentChain: Not completed yet"
    else .ok (setCommitment s id { c with isVerified := true },
              [Event.CommitmentVerified id sender ts])
  else .error "CommitmentChain: Invalid commitment ID"

/-- `pause`: live `onlyRole(EMERGENCY_ROLE)`, then Pausable's `_pause`
(which itself requires the contract not to be paused already). -/
def pause (sender : Nat) (s : ChainState) :
    Except String (ChainState × List Event) :=
  if ¬ s.hasRole Role.emergency sender then .error "AccessControlUnauthorizedAccount"
  else if s.paused then .error "EnforcedPause"
  else .ok ({ s with paused := true }, [])

/-- `unpause`: live `onlyRole(DEFAULT_ADMIN_ROLE)`, then Pausable's
`_unpause`. -/
def unpause (sender : Nat) (s : ChainState) :
    Except String (ChainState × List Event) :=
  if ¬ s.hasRole Role.defaultAdmin sender then .error "AccessControlUnauthorizedAccount"
  else if ¬ s.paused then .error "ExpectedPause"
  else .ok ({ s with paused := false }, [])

/-- AccessControl's `grantRole` (role admin is `DEFAULT_ADMIN_ROLE` for every
role here, no `_setRoleAdmin` call exists in the contract). -/
def grantRole (sender : Nat) (role : Role) (account : Nat) (s : ChainState) :
    Except String (ChainState × List Event) :=
  if ¬ s.hasRole Role.defaultAdmin sender then .error "AccessControlUnauthorizedAccount"
  else .ok ({ s with hasRole := fun r a =>
      if r = role ∧ a = account then true else s.hasRole r a }, [])

/-- AccessControl's `revokeRole`. -/
def revokeRole (sender : Nat) (role : Role) (account : Nat) (s : ChainState) :
    Except String (ChainState × List Event) :=
  if ¬ s.hasRole Role.defaultAdmin sender then .error "AccessControlUnauthorizedAccount"
  else .ok ({ s with hasRole := fun r a =>
      if r = role ∧ a = account then false else s.hasRole r a }, [])

/-- `getCommitment` (view): `validCommitmentId`, then the full record. -/
def getCommitment (id : Nat) (s : ChainState) : Except String Commitment :=
  if validCommitmentId s id then .ok (getStored s id)
  else .error "CommitmentChain: Invalid commitment ID"

/-- `hasWitnessSigned` (view). -/
def hasWitnessSigned (id witness : Nat) (s : ChainState) : Except String Bool :=
  if validCommitmentId s id then .ok (s.witnessSigned id witness)
  else .error "CommitmentChain: Invalid commitment ID"

/-- `getRole` (view): role label of an address for a commitment. -/
def getRole (id addr : Nat) (s : ChainState) : Except String String :=
  if validCommitmentId s id then
    let c := getStored s id
    .ok (if addr = c.initiator then "initiator"
         else if addr = c.signer then "signer"
         else if isWitness s id addr then "witness"
         else "none")
  else .error "CommitmentChain: Invalid commitment ID"

/-- `getWitnessCount` (view). -/
def getWitnessCount (id : Nat) (s : ChainState) : Except String Nat :=
  if validCommitmentId s id then .ok (getStored s id).witnesses.length
  else .error "CommitmentChain: Invalid commitment ID"

/-- `commitmentCount` (view). -/
def commitmentCount (s : ChainState) : Nat :=
  s.commitmentIdCounter

/-- The state after `initialize(admin)` (admin must be nonzero): counter 0,
empty mappings, not paused, `DEFAULT_ADMIN_ROLE` granted to `admin`. -/
def initState (admin : Nat) : ChainState :=
  { commitmentIdCounter := 0,
    commitments := fun _ => none,
    witnessSigned := fun _ _ => false,
    hasRole := fun r a => if r = Role.defaultAdmin ∧ a = admin then true else false,
    paused := false }

/-- One external mutating call, with its arguments. -/
inductive Op
  | create (sender : Nat) (fileHash : String) (signer : Nat)
      (witnesses : List Nat) (ts : Nat)
  | signSigner (sender id ts : Nat)
  | signWitness (sender id ts : Nat)
  | freeze (sender id ts : Nat)
  | unfreeze (sender id ts : Nat)
  | verify (sender id ts : Nat)
  | pauseOp (sender : Nat)
  | unpauseOp (sender : Nat)
  | grant (sender : Nat) (role : Role) (account : Nat)
  | revoke (sender : Nat) (role : Role) (account : Nat)

/-- Transactional application: a reverted call leaves the state unchanged and
emits nothing (the host ledger's all-or-nothing semantics). -/
def settle (s : ChainState) :
    Except String (ChainState × List Event) → ChainState × List Event
  | .ok r => r
  | .error _ => (s, [])

/-- Apply one call to the state, transactionally. -/
def applyOp (op : Op) (s : ChainState) : ChainState × List Event :=
  match op with
  | .create sender fh signer ws ts =>
    match createCommitment sender fh signer ws ts s with
    | .ok (s', evs, _) => (s', evs)
    | .error _ => (s, [])
  | .signSigner sender id ts => settle s (signAsSigner sender id ts s)
  | .signWitness sender id ts => settle s (signAsWitness sender id ts s)
  | .freeze sender id ts => settle s (freezeCommitment sender id ts s)
  | .unfreeze sender id ts => settle s (unfreezeCommitment sender id ts s)
  | .verify sender id ts => settle s (verifyCommitment sender id ts s)
  | .pauseOp sender => settle s (pause sender s)
  | .unpauseOp sender => settle s (unpause sender s)
  | .grant sender role account => settle s (grantRole sender role account s)
  | .revoke sender role account => settle s (revokeRole sender role account s)

/-- Run a sequence of calls, concatenating the emitted events. -/
def run (ops : List Op) (s : ChainState) : ChainState × List Event :=
  match ops with
  | [] => (s, [])
  | op :: rest =>
    let r1 := applyOp op s
    let r2 := run rest r1.1
    (r2.1, r1.2 ++ r2.2)

/-- The ids returned by the successful `createCommitment` calls of a
sequence, in order (failed creations return nothing). -/
def runIds (ops : List Op) (s : ChainState) : List Nat :=
  match ops with
  | [] => []
  | op :: rest =>
    let here : List Nat :=
      match op with
      | .create sender fh signer ws ts =>
        match createCommitment sender fh signer ws ts s with
        | .ok (_, _, newId) => [newId]
        | .error _ => []
      | _ => []
    here ++ runIds rest (applyOp op s).1

/-- States reachable from a freshly initialised contract. -/
inductive Reachable : ChainState → Prop
  | init (admin : Nat) (h : admin ≠ 0) : Reachable (initState admin)
  | step (op : Op) (s : ChainState) (h : Reachable s) : Reachable (applyOp op s).1

/-- Reachable state together with the full event log since initialisation. -/
inductive ReachableLog : ChainState → List Event → Prop
  | init (admin : Nat) (h : admin ≠ 0) : ReachableLog (initState admin) []
  | step (op : Op) (s : ChainState) (log : List Event) (h : ReachableLog s log) :
      ReachableLog (applyOp op s).1 (log ++ (applyOp op s).2)

/-- Number of `CommitmentCompleted` events for a given id in a log. -/
def completedEvCount (log : List Event) (id : Nat) : Nat :=
  (log.filter (fun e =>
    match e with
    | Event.CommitmentCompleted i _ => i == id
    | _ => false)).length

/-- `_checkCompletion`'s three-way condition as a predicate on the record. -/
def completionCond (c : Commitment) : Bool :=
  c.initiatorSigned && c.signerSigned && (c.witnessSignedCount == c.witnesses.length)

/-- The record `createCommitment` stores for a fresh id. -/
def createdCommitment (sender : Nat) (fh : String) (signer : Nat)
    (ws : List Nat) (ts newId : Nat) : Commitment :=
  { id := newId, initiator := sender, signer := signer, witnesses := ws,
    fileHash := fh, createdAt := ts, initiatorSigned := true,
    signerSigned := false, witnessSignedCount := 0, isCompleted := false,
    isFrozen := false, isVerified := false }

/-- Well-formedness of one stored commitment record relative to the
per-witness signature mapping. -/
structure CommitmentOK (s : ChainState) (id : Nat) (c : Commitment) : Prop where
  idEq : c.id = id
  initSigned : c.initiatorSigned = true
  signerNeZero : c.signer ≠ 0
  signerNeInitiator : c.signer ≠ c.initiator
  fileHashNe : c.fileHash ≠ ""
  wNodup : c.witnesses.Nodup
  wOk : ∀ w ∈ c.witnesses, w ≠ 0 ∧ w ≠ c.signer
  countEq : c.witnessSignedCount
    = (c.witnesses.filter (fun w => s.witnessSigned id w)).length
  completedIff : c.isCompleted = completionCond c
  verifiedImp : c.isVerified = true → c.isCompleted = true

/-- The global state invariant: the id space is exactly `1..counter`, every
stored record is well-formed, and never-created ids carry no witness
signatures. -/
structure Inv (s : ChainState) : Prop where
  validIff : ∀ id, (∃ c, s.commitments id = some c) ↔ validCommitmentId s id
  ok : ∀ id c, s.commitments id = some c → CommitmentOK s id c
  freshClean : ∀ id, s.commitments id = none → ∀ w, s.witnessSigned id w = false

/-- The per-commitment monotonic facts one step preserves. -/
def StepMono (s s' : ChainState) (id : Nat) (c c' : Commitment) : Prop :=
  c'.witnesses = c.witnesses ∧
  (c.initiatorSigned = true → c'.initiatorSigned = true) ∧
  (c.signerSigned = true → c'.signerSigned = true) ∧
  (c.isCompleted = true → c'.isCompleted = true) ∧
  (c.isVerified = true → c'.isVerified = true) ∧
  c.witnessSignedCount ≤ c'.witnessSignedCount ∧
  (∀ w, s.witnessSigned id w = true → s'.witnessSigned id w = true)

/-- `1` iff the commitment exists and is completed. -/
def completedFlag (s : ChainState) (id : Nat) : Nat :=
  match s.commitments id with
  | some c => if c.isCompleted then 1 else 0
  | none => 0

/-! ### Basic lemmas about the storage helpers -/

theorem setCommitment_commitments_self (s : ChainState) (id : Nat) (c : Commitment) :
    (setCommitment s id c).commitments id = some c := by
  simp [setCommitment]

theorem setCommitment_commitments_ne (s : ChainState) {j id : Nat} (c : Commitment)
    (h : j ≠ id) : (setCommitment s id c).commitments j = s.commitments j := by
  simp [setCommitment, h]

theorem setCommitment_counter (s : ChainState) (id : Nat) (c : Commitment) :
    (setCommitment s id c).commitmentIdCounter = s.commitmentIdCounter := rfl

theorem setCommitment_witnessSigned (s : ChainState) (id : Nat) (c : Commitment) :
    (setCommitment s id c).witnessSigned = s.witnessSigned := rfl

theorem setCommitment_paused (s : ChainState) (id : Nat) (c : Commitment) :
    (setCommitment s id c).paused = s.paused := rfl

theorem setCommitment_hasRole (s : ChainState) (id : Nat) (c : Commitment) :
    (setCommitment s id c).hasRole = s.hasRole := rfl

theorem getStored_of_some {s : ChainState} {id : Nat} {c : Commitment}
    (h : s.commitments id = some c) : getStored s id = c := by
  simp [getStored, h]

/-! ### Lemmas about the witness-validation loop -/

theorem checkWitnesses_ok_iff (signer : Nat) (ws : List Nat) :
    checkWitnesses signer ws = .ok () ↔
      ((∀ w ∈ ws, w ≠ 0 ∧ w ≠ signer) ∧ ws.Nodup) := by
  induction ws with
  | nil => simp [checkWitnesses]
  | cons w rest ih =>
    rw [checkWitnesses]
    by_cases h0 : w = 0
    · subst h0; simp
    · rw [if_neg h0]
      by_cases hs : w = signer
      · subst hs; simp
      · rw [if_neg hs]
        by_cases hd : rest.contains w
        · have hmem : w ∈ rest := by simpa using hd
          simp [hd, List.nodup_cons, hmem]
        · have hmem : w ∉ rest := by simpa using hd
          rw [if_neg (by simpa using hd), ih]
          constructor
          · rintro ⟨hall, hnd⟩
            refine ⟨?_, List.nodup_cons.2 ⟨hmem, hnd⟩⟩
            intro a ha
            rcases List.mem_cons.1 ha with rfl | ha'
            · exact ⟨h0, hs⟩
            · exact hall a ha'
          · rintro ⟨hall, hnd⟩
            exact ⟨fun a ha => hall a (List.mem_cons_of_mem _ ha),
              (List.nodup_cons.1 hnd).2⟩

theorem except_unit_cases (x : Except String Unit) :
    x = .ok () ∨ ∃ e, x = .error e := by
  cases x with
  | ok u => exact Or.inl (by rfl)
  | error e => exact Or.inr ⟨e, rfl⟩

/-! ### Counting lemmas for the witness-signature filter -/

theorem length_filter_lt_of_mem_false {p : Nat → Bool} {l : List Nat} {a : Nat}
    (ha : a ∈ l) (hpa : p a = false) : (l.filter p).length < l.length := by
  induction l with
  | nil => cases ha
  | cons b t ih =>
    rcases List.mem_cons.1 ha with rfl | hat
    · rw [List.filter_cons_of_neg (by simp [hpa])]
      exact Nat.lt_succ_of_le (List.length_filter_le _ _)
    · by_cases hpb : p b = true
      · rw [List.filter_cons_of_pos hpb]
        exact Nat.succ_lt_succ (ih hat)
      · rw [List.filter_cons_of_neg hpb]
        exact Nat.lt_succ_of_lt (ih hat)

theorem length_filter_update_succ {l : List Nat} {a : Nat} {p : Nat → Bool}
    (hnd : l.Nodup) (ha : a ∈ l) (hpa : p a = false) :
    (l.filter (fun w => if w = a then true else p w)).length
      = (l.filter p).length + 1 := by
  induction l with
  | nil => cases ha
  | cons b t ih =>
    rcases List.mem_cons.1 ha with rfl | hat
    · have hbt : a ∉ t := (List.nodup_cons.1 hnd).1
      have hcong : t.filter (fun w => if w = a then true else p w) = t.filter p :=
        List.filter_congr (fun w hw => by
          have hne : w ≠ a := fun h => hbt (h ▸ hw)
          simp [hne])
      rw [List.filter_cons_of_pos (by simp), List.filter_cons_of_neg (by simp [hpa]),
        hcong]
      simp
    · have hnd' := (List.nodup_cons.1 hnd).2
      have hba : b ≠ a := fun h => (List.nodup_cons.1 hnd).1 (h ▸ hat)
      by_cases hpb : p b = true
      · rw [List.filter_cons_of_pos (by simp [hba, hpb]), List.filter_cons_of_pos hpb,
          List.length_cons, List.length_cons, ih hnd' hat]
      · rw [List.filter_cons_of_neg (by simp [hba, hpb]), List.filter_cons_of_neg hpb]
        exact ih hnd' hat

theorem all_true_of_length_filter_eq {p : Nat → Bool} {l : List Nat}
    (h : (l.filter p).length = l.length) : ∀ a ∈ l, p a = true := by
  intro a ha
  by_contra hpa
  have hpa' : p a = false := by revert hpa; cases p a <;> simp
  exact absurd h (Nat.ne_of_lt (length_filter_lt_of_mem_false ha hpa'))

/-! ### Case lemmas for `_checkCompletion` -/

theorem checkCompletion_none {s : ChainState} {id : Nat} (ts : Nat)
    (h : s.commitments id = none) : checkCompletion id ts s = (s, []) := by
  simp [checkCompletion, h]

theorem checkCompletion_cond_true {s : ChainState} {id : Nat} {c : Commitment} (ts : Nat)
    (h : s.commitments id = some c) (hc : completionCond c = true) :
    checkCompletion id ts s =
      (setCommitment s id { c with isCompleted := true },
       [Event.CommitmentCompleted id ts]) := by
  simp only [completionCond] at hc
  simp only [checkCompletion, h]
  rw [if_pos hc]

theorem checkCompletion_cond_false {s : ChainState} {id : Nat} {c : Commitment} (ts : Nat)
    (h : s.commitments id = some c) (hc : completionCond c = false) :
    checkCompletion id ts s = (s, []) := by
  simp only [completionCond] at hc
  simp only [checkCompletion, h]
  rw [if_neg (by simp [hc])]

/-! ### Shape lemmas: a successful call implies its preconditions and
determines the resulting state and events. -/



theorem createCommitment_ok_shape {sender : Nat} {fh : String} {signer : Nat}
    {ws : List Nat} {ts : Nat} {s : ChainState} {r : ChainState × List Event × Nat}
    (h : createCommitment sender fh signer ws ts s = .ok r) :
    fh ≠ "" ∧ signer ≠ 0 ∧ signer ≠ sender ∧
      (∀ w ∈ ws, w ≠ 0 ∧ w ≠ signer) ∧ ws.Nodup ∧
      r = (setCommitment { s with commitmentIdCounter := s.commitmentIdCounter + 1 }
            (s.commitmentIdCounter + 1)
            (createdCommitment sender fh signer ws ts (s.commitmentIdCounter + 1)),
          [Event.CommitmentCreated (s.commitmentIdCounter + 1) sender signer fh ts,
           Event.CommitmentSigned (s.commitmentIdCounter + 1) sender "initiator" ts],
          s.commitmentIdCounter + 1) := by
  simp only [createCommitment] at h
  split_ifs at h with h1 h2 h3 <;> try exact Except.noConfusion h
  rcases hcw : checkWitnesses signer ws with e | u
  · rw [hcw] at h; exact Except.noConfusion h
  · cases u
    rw [hcw] at h
    obtain ⟨hall, hnd⟩ := (checkWitnesses_ok_iff signer ws).1 hcw
    have hcc : checkCompletion (s.commitmentIdCounter + 1) ts
        (setCommitment { s with commitmentIdCounter := s.commitmentIdCounter + 1 }
          (s.commitmentIdCounter + 1)
          (createdCommitment sender fh signer ws ts (s.commitmentIdCounter + 1)))
        = (setCommitment { s with commitmentIdCounter := s.commitmentIdCounter + 1 }
            (s.commitmentIdCounter + 1)
            (createdCommitment sender fh signer ws ts (s.commitmentIdCounter + 1)), []) :=
      checkCompletion_cond_false ts (setCommitment_commitments_self _ _ _)
        (by simp [completionCond, createdCommitment])
    rw [show (createdCommitment sender fh signer ws ts (s.commitmentIdCounter + 1))
        = { id := s.commitmentIdCounter + 1, initiator := sender, signer := signer,
            witnesses := ws, fileHash := fh, createdAt := ts, initiatorSigned := true,
            signerSigned := false, witnessSignedCount := 0, isCompleted := false,
            isFrozen := false, isVerified := false } from rfl] at hcc
    rw [hcc] at h
    injection h with h'
    exact ⟨h1, h2, h3, hall, hnd, by
      rw [← h']
      simp [createdCommitment]⟩

theorem signAsSigner_ok_shape {sender id ts : Nat} {s : ChainState}
    {r : ChainState × List Event}
    (h : signAsSigner sender id ts s = .ok r) :
    s.paused = false ∧ validCommitmentId s id ∧ isFrozenAt s id = false ∧
      sender = (getStored s id).signer ∧
      (getStored s id).signerSigned = false ∧
      (getStored s id).initiatorSigned = true ∧
      r = ((checkCompletion id ts
              (setCommitment s id { getStored s id with signerSigned := true })).1,
           Event.CommitmentSigned id sender "signer" ts ::
             (checkCompletion id ts
               (setCommitment s id { getStored s id with signerSigned := true })).2) := by
  simp only [signAsSigner] at h
  split_ifs at h with h1 h2 h3 h4 h5 h6 <;> try exact Except.noConfusion h
  injection h with h'
  refine ⟨by simpa using h1, h2, by simpa using h3, not_not.1 h4,
    by simpa using h5, h6, h'.symm⟩

theorem signAsWitness_ok_shape {sender id ts : Nat} {s : ChainState}
    {r : ChainState × List Event}
    (h : signAsWitness sender id ts s = .ok r) :
    validCommitmentId s id ∧ isFrozenAt s id = false ∧
      (getStored s id).initiatorSigned = true ∧
      isWitness s id sender = true ∧
      s.witnessSigned id sender = false ∧
      r = ((checkCompletion id ts
              (setCommitment
                { s with witnessSigned := fun j a =>
                    if j = id ∧ a = sender then true else s.witnessSigned j a }
                id
                { getStored s id with
                    witnessSignedCount := (getStored s id).witnessSignedCount + 1 })).1,
           Event.CommitmentSigned id sender "witness" ts ::
             (checkCompletion id ts
               (setCommitment
                 { s with witnessSigned := fun j a =>
                     if j = id ∧ a = sender then true else s.witnessSigned j a }
                 id
                 { getStored s id with
                     witnessSignedCount := (getStored s id).witnessSignedCount + 1 })).2) := by
  simp only [signAsWitness] at h
  split_ifs at h with h1 h2 h3 h4 h5 <;> try exact Except.noConfusion h
  injection h with h'
  refine ⟨h1, by simpa using h2, h3, h4, by simpa using h5, h'.symm⟩

theorem freezeCommitment_ok_shape {sender id ts : Nat} {s : ChainState}
    {r : ChainState × List Event}
    (h : freezeCommitment sender id ts s = .ok r) :
    validCommitmentId s id ∧ (getStored s id).isFrozen = false ∧
      r = (setCommitment s id { getStored s id with isFrozen := true },
           [Event.CommitmentFrozen id sender ts]) := by
  simp only [freezeCommitment] at h
  split_ifs at h with h1 h2 <;> try exact Except.noConfusion h
  injection h with h'
  exact ⟨h1, by simpa using h2, h'.symm⟩

theorem unfreezeCommitment_ok_shape {sender id ts : Nat} {s : ChainState}
    {r : ChainState × List Event}
    (h : unfreezeCommitment sender id ts s = .ok r) :
    validCommitmentId s id ∧ (getStored s id).isFrozen = true ∧
      r = (setCommitment s id { getStored s id with isFrozen := false },
           [Event.CommitmentUnfrozen id sender ts]) := by
  simp only [unfreezeCommitment] at h
  split_ifs at h with h1 h2 <;> try exact Except.noConfusion h
  injection h with h'
  exact ⟨h1, h2, h'.symm⟩

theorem verifyCommitment_ok_shape {sender id ts : Nat} {s : ChainState}
    {r : ChainState × List Event}
    (h : verifyCommitment sender id ts s = .ok r) :
    validCommitmentId s id ∧ (getStored s id).isVerified = false ∧
      (getStored s id).isCompleted = true ∧
      r = (setCommitment s id { getStored s id with isVerified := true },
           [Event.CommitmentVerified id sender ts]) := by
  simp only [verifyCommitment] at h
  split_ifs at h with h1 h2 h3 <;> try exact Except.noConfusion h
  injection h with h'
  exact ⟨h1, by simpa using h2, h3, h'.symm⟩

theorem pause_ok_shape {sender : Nat} {s : ChainState} {r : ChainState × List Event}
    (h : pause sender s = .ok r) :
    s.hasRole Role.emergency sender = true ∧ s.paused = false ∧
      r = ({ s with paused := true }, []) := by
  simp only [pause] at h
  split_ifs at h with h1 h2 <;> try exact Except.noConfusion h
  injection h with h'
  exact ⟨not_not.1 (by simpa using h1), by simpa using h2, h'.symm⟩

theorem unpause_ok_shape {sender : Nat} {s : ChainState} {r : ChainState × List Event}
    (h : unpause sender s = .ok r) :
    s.hasRole Role.defaultAdmin sender = true ∧ s.paused = true ∧
      r = ({ s with paused := false }, []) := by
  simp only [unpause] at h
  split_ifs at h with h1 h2 <;> try exact Except.noConfusion h
  injection h with h'
  exact ⟨not_not.1 (by simpa using h1), not_not.1 (by simpa using h2), h'.symm⟩

theorem grantRole_ok_shape {sender account : Nat} {role : Role} {s : ChainState}
    {r : ChainState × List Event}
    (h : grantRole sender role account s = .ok r) :
    r = ({ s with hasRole := fun ro a =>
        if ro = role ∧ a = account then true else s.hasRole ro a }, []) := by
  simp only [grantRole] at h
  split_ifs at h with h1 <;> try exact Except.noConfusion h
  injection h with h'
  exact h'.symm

theorem revokeRole_ok_shape {sender account : Nat} {role : Role} {s : ChainState}
    {r : ChainState × List Event}
    (h : revokeRole sender role account s = .ok r) :
    r = ({ s with hasRole := fun ro a =>
        if ro = role ∧ a = account then false else s.hasRole ro a }, []) := by
  simp only [revokeRole] at h
  split_ifs at h with h1 <;> try exact Except.noConfusion h
  injection h with h'
  exact h'.symm

/-! ### The state invariant maintained by every operation -/





theorem CommitmentOK.countLe {s : ChainState} {id : Nat} {c : Commitment}
    (h : CommitmentOK s id c) : c.witnessSignedCount ≤ c.witnesses.length := by
  rw [h.countEq]; exact List.length_filter_le _ _

/-- `CommitmentOK` only reads the per-witness flags of its own id, so it
transports along any state change that keeps those flags. -/
theorem CommitmentOK.mono_ws {s s' : ChainState} {id : Nat} {c : Commitment}
    (h : CommitmentOK s id c)
    (hws : ∀ w, s'.witnessSigned id w = s.witnessSigned id w) :
    CommitmentOK s' id c := by
  refine ⟨h.idEq, h.initSigned, h.signerNeZero, h.signerNeInitiator, h.fileHashNe,
    h.wNodup, h.wOk, ?_, h.completedIff, h.verifiedImp⟩
  rw [h.countEq]
  exact congrArg List.length (List.filter_congr fun w _ => (hws w).symm)

theorem filter_length_zero_of_false {p : Nat → Bool} {l : List Nat}
    (h : ∀ a ∈ l, p a = false) : (l.filter p).length = 0 := by
  induction l with
  | nil => rfl
  | cons b t ih =>
    rw [List.filter_cons_of_neg (by simp [h b (List.mem_cons_self b t)])]
    exact ih fun a ha => h a (List.mem_cons_of_mem _ ha)

theorem validIff_setCommitment {s : ChainState} {id : Nat} {c0 : Commitment}
    (c1 : Commitment) (hs : s.commitments id = some c0)
    (hv : ∀ j, (∃ c, s.commitments j = some c) ↔ validCommitmentId s j) :
    ∀ j, (∃ c, (setCommitment s id c1).commitments j = some c)
      ↔ validCommitmentId (setCommitment s id c1) j := by
  intro j
  by_cases hj : j = id
  · subst hj
    constructor
    · intro _; exact (hv j).1 ⟨c0, hs⟩
    · intro _; exact ⟨c1, setCommitment_commitments_self _ _ _⟩
  · rw [setCommitment_commitments_ne _ c1 hj]
    exact hv j

/-- `Inv` after `_checkCompletion` at an id whose record satisfies
everything except possibly the completion flag (which is still `false`). -/
theorem inv_checkCompletion {s1 : ChainState} {id : Nat} (ts : Nat) {c1 : Commitment}
    (hsome : s1.commitments id = some c1)
    (hvalid : ∀ j, (∃ c, s1.commitments j = some c) ↔ validCommitmentId s1 j)
    (hok : ∀ j c, s1.commitments j = some c → j ≠ id → CommitmentOK s1 j c)
    (hfresh : ∀ j, s1.commitments j = none → ∀ w, s1.witnessSigned j w = false)
    (hidEq : c1.id = id) (hinit : c1.initiatorSigned = true)
    (hsz : c1.signer ≠ 0) (hsi : c1.signer ≠ c1.initiator)
    (hfh : c1.fileHash ≠ "") (hnd : c1.witnesses.Nodup)
    (hwok : ∀ w ∈ c1.witnesses, w ≠ 0 ∧ w ≠ c1.signer)
    (hcount : c1.witnessSignedCount
      = (c1.witnesses.filter (fun w => s1.witnessSigned id w)).length)
    (hncomp : c1.isCompleted = false) (hnver : c1.isVerified = false) :
    Inv (checkCompletion id ts s1).1 := by
  rcases hcond : completionCond c1 with hf | ht
  · rw [checkCompletion_cond_false ts hsome hcond]
    refine ⟨hvalid, ?_, hfresh⟩
    intro j c hc
    by_cases hj : j = id
    · subst hj
      rw [hsome] at hc
      cases hc
      exact ⟨hidEq, hinit, hsz, hsi, hfh, hnd, hwok, hcount,
        by rw [hncomp, hcond], fun hv => absurd hv (by simp [hnver])⟩
    · exact hok j c hc hj
  · rw [checkCompletion_cond_true ts hsome hcond]
    set c2 : Commitment := { c1 with isCompleted := true } with hc2
    set s2 := setCommitment s1 id c2 with hs2
    have hws2 : ∀ j w, s2.witnessSigned j w = s1.witnessSigned j w := fun _ _ => rfl
    refine ⟨validIff_setCommitment c2 hsome hvalid, ?_, ?_⟩
    · intro j c hc
      by_cases hj : j = id
      · subst hj
        rw [hs2, setCommitment_commitments_self] at hc
        cases hc
        refine ⟨hidEq, hinit, hsz, hsi, hfh, hnd, hwok, hcount, ?_, fun _ => rfl⟩
        have : completionCond c2 = completionCond c1 := rfl
        rw [this, hcond]
      · rw [hs2, setCommitment_commitments_ne _ c2 hj] at hc
        exact (hok j c hc hj).mono_ws fun w => rfl
    · intro j hj w
      by_cases hji : j = id
      · subst hji
        rw [hs2, setCommitment_commitments_self] at hj
        cases hj
      · rw [hs2, setCommitment_commitments_ne _ c2 hji] at hj
        exact hfresh j hj w

/-- Transport `Inv` along a state change that keeps the commitment map, the
witness-signature map and the counter (pause / role updates). -/
theorem inv_congr {s s' : ChainState} (hs : Inv s)
    (hc : s'.commitments = s.commitments) (hw : s'.witnessSigned = s.witnessSigned)
    (hn : s'.commitmentIdCounter = s.commitmentIdCounter) : Inv s' := by
  refine ⟨?_, ?_, ?_⟩
  · intro j
    unfold validCommitmentId
    rw [hc, hn]
    exact hs.validIff j
  · intro j c h
    rw [hc] at h
    exact (hs.ok j c h).mono_ws fun w => by rw [hw]
  · intro j h w
    rw [hc] at h
    rw [hw]
    exact hs.freshClean j h w

theorem inv_initState (admin : Nat) : Inv (initState admin) := by
  refine ⟨?_, ?_, ?_⟩
  · intro id
    constructor
    · rintro ⟨c, hc⟩; cases hc
    · rintro ⟨h1, h2⟩
      simp only [initState] at h2
      omega
  · intro id c hc; cases hc
  · intro id h w; rfl

theorem inv_create {s : ChainState} (hs : Inv s) (sender : Nat) (fh : String)
    (signer : Nat) (ws : List Nat) (ts : Nat) :
    Inv (applyOp (Op.create sender fh signer ws ts) s).1 := by
  rcases hc : createCommitment sender fh signer ws ts s with e | ⟨s', evs, nid⟩
  · simp only [applyOp, hc]; exact hs
  · simp only [applyOp, hc]
    obtain ⟨h1, h2, h3, hall, hnd, hr⟩ := createCommitment_ok_shape hc
    simp only [Prod.mk.injEq] at hr
    obtain ⟨hrs, hre, hrn⟩ := hr
    subst hrs
    have hnone : s.commitments (s.commitmentIdCounter + 1) = none := by
      rcases hh : s.commitments (s.commitmentIdCounter + 1) with _ | c
      · rfl
      · have := ((hs.validIff _).1 ⟨c, hh⟩).2
        omega
    have hcnt : (setCommitment { s with commitmentIdCounter := s.commitmentIdCounter + 1 }
        (s.commitmentIdCounter + 1)
        (createdCommitment sender fh signer ws ts (s.commitmentIdCounter + 1))).commitmentIdCounter
        = s.commitmentIdCounter + 1 := rfl
    refine ⟨?_, ?_, ?_⟩
    · intro j
      unfold validCommitmentId
      rw [hcnt]
      by_cases hj : j = s.commitmentIdCounter + 1
      · subst hj
        constructor
        · intro _
          omega
        · intro _
          exact ⟨_, setCommitment_commitments_self _ _ _⟩
      · rw [setCommitment_commitments_ne _ _ hj, hs.validIff j]
        unfold validCommitmentId
        constructor
        · intro hx
          exact ⟨hx.1, by omega⟩
        · intro hx
          exact ⟨hx.1, by omega⟩
    · intro j c hcj
      by_cases hj : j = s.commitmentIdCounter + 1
      · subst hj
        rw [setCommitment_commitments_self] at hcj
        cases hcj
        refine ⟨rfl, rfl, h2, h3, h1, hnd, hall, ?_, by simp [completionCond, createdCommitment],
          by intro hv; simpa [createdCommitment] using hv⟩
        have : ∀ w, s.witnessSigned (s.commitmentIdCounter + 1) w = false :=
          hs.freshClean _ hnone
        simp only [createdCommitment]
        exact (filter_length_zero_of_false fun a _ => this a).symm
      · rw [setCommitment_commitments_ne _ _ hj] at hcj
        exact (hs.ok j c hcj).mono_ws fun w => rfl
    · intro j hj w
      by_cases hji : j = s.commitmentIdCounter + 1
      · subst hji
        rw [setCommitment_commitments_self] at hj
        cases hj
      · rw [setCommitment_commitments_ne _ _ hji] at hj
        exact hs.freshClean j hj w

theorem inv_signSigner {s : ChainState} (hs : Inv s) (sender id ts : Nat) :
    Inv (applyOp (Op.signSigner sender id ts) s).1 := by
  rcases h : signAsSigner sender id ts s with e | r
  · simp only [applyOp, settle, h]; exact hs
  · simp only [applyOp, settle, h]
    obtain ⟨hp, hv, hfz, hsig, hss, hinit, hr⟩ := signAsSigner_ok_shape h
    obtain ⟨c, hc⟩ := (hs.validIff id).2 hv
    have hg : getStored s id = c := getStored_of_some hc
    rw [hg] at hss hr
    subst hr
    have hko := hs.ok id c hc
    have hncomp : c.isCompleted = false := by
      rw [hko.completedIff, completionCond, hss]
      simp
    have hnver : c.isVerified = false := by
      by_contra hvv
      have hvt : c.isVerified = true := by
        revert hvv; cases c.isVerified <;> simp
      rw [hko.verifiedImp hvt] at hncomp
      cases hncomp
    exact inv_checkCompletion ts (setCommitment_commitments_self _ _ _)
      (validIff_setCommitment _ hc hs.validIff)
      (fun j c0 hc0 hj => by
        rw [setCommitment_commitments_ne _ _ hj] at hc0
        exact (hs.ok j c0 hc0).mono_ws fun w => rfl)
      (fun j hj w => by
        by_cases hji : j = id
        · subst hji; rw [setCommitment_commitments_self] at hj; cases hj
        · rw [setCommitment_commitments_ne _ _ hji] at hj
          exact hs.freshClean j hj w)
      hko.idEq hko.initSigned hko.signerNeZero hko.signerNeInitiator hko.fileHashNe
      hko.wNodup hko.wOk hko.countEq hncomp hnver

theorem inv_signWitness {s : ChainState} (hs : Inv s) (sender id ts : Nat) :
    Inv (applyOp (Op.signWitness sender id ts) s).1 := by
  rcases h : signAsWitness sender id ts s with e | r
  · simp only [applyOp, settle, h]; exact hs
  · simp only [applyOp, settle, h]
    obtain ⟨hv, hfz, hinit, hwit, hflag, hr⟩ := signAsWitness_ok_shape h
    obtain ⟨c, hc⟩ := (hs.validIff id).2 hv
    have hg : getStored s id = c := getStored_of_some hc
    rw [hg] at hr
    subst hr
    have hko := hs.ok id c hc
    have hmem : sender ∈ c.witnesses := by
      rw [isWitness, hg] at hwit
      simpa using hwit
    have hlt : c.witnessSignedCount < c.witnesses.length := by
      rw [hko.countEq]
      exact length_filter_lt_of_mem_false hmem hflag
    have hncomp : c.isCompleted = false := by
      rw [hko.completedIff, completionCond]
      have hbe : (c.witnessSignedCount == c.witnesses.length) = false := by
        simp [Nat.ne_of_lt hlt]
      simp [hbe]
    have hnver : c.isVerified = false := by
      by_contra hvv
      have hvt : c.isVerified = true := by
        revert hvv; cases c.isVerified <;> simp
      rw [hko.verifiedImp hvt] at hncomp
      cases hncomp
    set s1 : ChainState :=
      { s with witnessSigned := fun j a =>
          if j = id ∧ a = sender then true else s.witnessSigned j a } with hs1
    have hc1 : s1.commitments id = some c := hc
    have hcount1 : c.witnessSignedCount + 1
        = (c.witnesses.filter (fun w => s1.witnessSigned id w)).length := by
      have hcong : c.witnesses.filter (fun w => s1.witnessSigned id w)
          = c.witnesses.filter (fun w => if w = sender then true else s.witnessSigned id w) :=
        List.filter_congr fun w _ => by simp [hs1]
      rw [hcong, length_filter_update_succ hko.wNodup hmem hflag, hko.countEq]
    exact inv_checkCompletion ts (setCommitment_commitments_self _ _ _)
      (validIff_setCommitment _ hc1 hs.validIff)
      (fun j c0 hc0 hj => by
        rw [setCommitment_commitments_ne _ _ hj] at hc0
        exact (hs.ok j c0 hc0).mono_ws fun w => by
          show (if j = id ∧ w = sender then true else s.witnessSigned j w)
            = s.witnessSigned j w
          rw [if_neg (by tauto)])
      (fun j hj w => by
        by_cases hji : j = id
        · subst hji; rw [setCommitment_commitments_self] at hj; cases hj
        · rw [setCommitment_commitments_ne _ _ hji] at hj
          have hfc := hs.freshClean j hj w
          show (if j = id ∧ w = sender then true else s.witnessSigned j w) = false
          rw [if_neg (by tauto)]
          exact hfc)
      hko.idEq hko.initSigned hko.signerNeZero hko.signerNeInitiator hko.fileHashNe
      hko.wNodup hko.wOk hcount1 hncomp hnver

theorem inv_freeze {s : ChainState} (hs : Inv s) (sender id ts : Nat) :
    Inv (applyOp (Op.freeze sender id ts) s).1 := by
  rcases h : freezeCommitment sender id ts s with e | r
  · simp only [applyOp, settle, h]; exact hs
  · simp only [applyOp, settle, h]
    obtain ⟨hv, hfz, hr⟩ := freezeCommitment_ok_shape h
    obtain ⟨c, hc⟩ := (hs.validIff id).2 hv
    have hg : getStored s id = c := getStored_of_some hc
    rw [hg] at hr
    subst hr
    have hko := hs.ok id c hc
    refine ⟨validIff_setCommitment _ hc hs.validIff, ?_, ?_⟩
    · intro j c0 hc0
      by_cases hj : j = id
      · subst hj
        rw [setCommitment_commitments_self] at hc0
        cases hc0
        exact ⟨hko.idEq, hko.initSigned, hko.signerNeZero, hko.signerNeInitiator,
          hko.fileHashNe, hko.wNodup, hko.wOk, hko.countEq, hko.completedIff,
          hko.verifiedImp⟩
      · rw [setCommitment_commitments_ne _ _ hj] at hc0
        exact (hs.ok j c0 hc0).mono_ws fun w => rfl
    · intro j hj w
      by_cases hji : j = id
      · subst hji; rw [setCommitment_commitments_self] at hj; cases hj
      · rw [setCommitment_commitments_ne _ _ hji] at hj
        exact hs.freshClean j hj w

theorem inv_unfreeze {s : ChainState} (hs : Inv s) (sender id ts : Nat) :
    Inv (applyOp (Op.unfreeze sender id ts) s).1 := by
  rcases h : unfreezeCommitment sender id ts s with e | r
  · simp only [applyOp, settle, h]; exact hs
  · simp only [applyOp, settle, h]
    obtain ⟨hv, hfz, hr⟩ := unfreezeCommitment_ok_shape h
    obtain ⟨c, hc⟩ := (hs.validIff id).2 hv
    have hg : getStored s id = c := getStored_of_some hc
    rw [hg] at hr
    subst hr
    have hko := hs.ok id c hc
    refine ⟨validIff_setCommitment _ hc hs.validIff, ?_, ?_⟩
    · intro j c0 hc0
      by_cases hj : j = id
      · subst hj
        rw [setCommitment_commitments_self] at hc0
        cases hc0
        exact ⟨hko.idEq, hko.initSigned, hko.signerNeZero, hko.signerNeInitiator,
          hko.fileHashNe, hko.wNodup, hko.wOk, hko.countEq, hko.completedIff,
          hko.verifiedImp⟩
      · rw [setCommitment_commitments_ne _ _ hj] at hc0
        exact (hs.ok j c0 hc0).mono_ws fun w => rfl
    · intro j hj w
      by_cases hji : j = id
      · subst hji; rw [setCommitment_commitments_self] at hj; cases hj
      · rw [setCommitment_commitments_ne _ _ hji] at hj
        exact hs.freshClean j hj w

theorem inv_verify {s : ChainState} (hs : Inv s) (sender id ts : Nat) :
    Inv (applyOp (Op.verify sender id ts) s).1 := by
  rcases h : verifyCommitment sender id ts s with e | r
  · simp only [applyOp, settle, h]; exact hs
  · simp only [applyOp, settle, h]
    obtain ⟨hv, hnv, hcomp, hr⟩ := verifyCommitment_ok_shape h
    obtain ⟨c, hc⟩ := (hs.validIff id).2 hv
    have hg : getStored s id = c := getStored_of_some hc
    rw [hg] at hcomp hr
    subst hr
    have hko := hs.ok id c hc
    refine ⟨validIff_setCommitment _ hc hs.validIff, ?_, ?_⟩
    · intro j c0 hc0
      by_cases hj : j = id
      · subst hj
        rw [setCommitment_commitments_self] at hc0
        cases hc0
        exact ⟨hko.idEq, hko.initSigned, hko.signerNeZero, hko.signerNeInitiator,
          hko.fileHashNe, hko.wNodup, hko.wOk, hko.countEq, hko.completedIff,
          fun _ => hcomp⟩
      · rw [setCommitment_commitments_ne _ _ hj] at hc0
        exact (hs.ok j c0 hc0).mono_ws fun w => rfl
    · intro j hj w
      by_cases hji : j = id
      · subst hji; rw [setCommitment_commitments_self] at hj; cases hj
      · rw [setCommitment_commitments_ne _ _ hji] at hj
        exact hs.freshClean j hj w

theorem inv_applyOp (op : Op) {s : ChainState} (hs : Inv s) :
    Inv (applyOp op s).1 := by
  cases op with
  | create sender fh signer ws ts => exact inv_create hs sender fh signer ws ts
  | signSigner sender id ts => exact inv_signSigner hs sender id ts
  | signWitness sender id ts => exact inv_signWitness hs sender id ts
  | freeze sender id ts => exact inv_freeze hs sender id ts
  | unfreeze sender id ts => exact inv_unfreeze hs sender id ts
  | verify sender id ts => exact inv_verify hs sender id ts
  | pauseOp sender =>
    rcases h : pause sender s with e | r
    · simp only [applyOp, settle, h]; exact hs
    · simp only [applyOp, settle, h]
      obtain ⟨_, _, hr⟩ := pause_ok_shape h
      subst hr
      exact inv_congr hs rfl rfl rfl
  | unpauseOp sender =>
    rcases h : unpause sender s with e | r
    · simp only [applyOp, settle, h]; exact hs
    · simp only [applyOp, settle, h]
      obtain ⟨_, _, hr⟩ := unpause_ok_shape h
      subst hr
      exact inv_congr hs rfl rfl rfl
  | grant sender role account =>
    rcases h : grantRole sender role account s with e | r
    · simp only [applyOp, settle, h]; exact hs
    · simp only [applyOp, settle, h]
      have hr := grantRole_ok_shape h
      subst hr
      exact inv_congr hs rfl rfl rfl
  | revoke sender role account =>
    rcases h : revokeRole sender role account s with e | r
    · simp only [applyOp, settle, h]; exact hs
    · simp only [applyOp, settle, h]
      have hr := revokeRole_ok_shape h
      subst hr
      exact inv_congr hs rfl rfl rfl

/-- Every reachable state satisfies the invariant. -/
theorem reachable_inv {s : ChainState} (h : Reachable s) : Inv s := by
  induction h with
  | init admin hadmin => exact inv_initState admin
  | step op s hr ih => exact inv_applyOp op ih

/-! ### State-component lemmas for `_checkCompletion` and the step relation -/

theorem checkCompletion_state (id ts : Nat) (s : ChainState) :
    (checkCompletion id ts s).1.commitmentIdCounter = s.commitmentIdCounter ∧
    (checkCompletion id ts s).1.witnessSigned = s.witnessSigned ∧
    (checkCompletion id ts s).1.paused = s.paused ∧
    (checkCompletion id ts s).1.hasRole = s.hasRole ∧
    (∀ j, j ≠ id → (checkCompletion id ts s).1.commitments j = s.commitments j) := by
  rcases h : s.commitments id with _ | c
  · rw [checkCompletion_none ts h]
    exact ⟨rfl, rfl, rfl, rfl, fun j hj => rfl⟩
  · rcases hcond : completionCond c with _ | _
    · rw [checkCompletion_cond_false ts h hcond]
      exact ⟨rfl, rfl, rfl, rfl, fun j hj => rfl⟩
    · rw [checkCompletion_cond_true ts h hcond]
      exact ⟨rfl, rfl, rfl, rfl, fun j hj => setCommitment_commitments_ne _ _ hj⟩

theorem checkCompletion_target {s1 : ChainState} {id : Nat} {c1 : Commitment} (ts : Nat)
    (hsome : s1.commitments id = some c1) :
    ∃ c', (checkCompletion id ts s1).1.commitments id = some c' ∧
      (c' = c1 ∨ c' = { c1 with isCompleted := true }) := by
  rcases hcond : completionCond c1 with _ | _
  · rw [checkCompletion_cond_false ts hsome hcond]
    exact ⟨c1, hsome, Or.inl rfl⟩
  · rw [checkCompletion_cond_true ts hsome hcond]
    exact ⟨_, setCommitment_commitments_self _ _ _, Or.inr rfl⟩



theorem stepMono_refl (s s' : ChainState) (id : Nat) (c : Commitment)
    (hw : ∀ w, s'.witnessSigned id w = s.witnessSigned id w) :
    StepMono s s' id c c :=
  ⟨rfl, fun h => h, fun h => h, fun h => h, fun h => h, le_refl _, fun w h => (hw w).trans h⟩

theorem stepMono_trans {s1 s2 s3 : ChainState} {id : Nat} {c1 c2 c3 : Commitment}
    (h12 : StepMono s1 s2 id c1 c2) (h23 : StepMono s2 s3 id c2 c3) :
    StepMono s1 s3 id c1 c3 := by
  obtain ⟨a1, a2, a3, a4, a5, a6, a7⟩ := h12
  obtain ⟨b1, b2, b3, b4, b5, b6, b7⟩ := h23
  exact ⟨b1.trans a1, fun h => b2 (a2 h), fun h => b3 (a3 h), fun h => b4 (a4 h),
    fun h => b5 (a5 h), a6.trans b6, fun w h => b7 w (a7 w h)⟩

/-- One step never erases a signature, a completion, a verification or a
witness flag, never shrinks the signed-witness counter, and never changes
the witness list of an existing commitment. -/
theorem step_mono (op : Op) {s : ChainState} (hs : Inv s) {id : Nat} {c : Commitment}
    (hc : s.commitments id = some c) :
    ∃ c', (applyOp op s).1.commitments id = some c' ∧
      StepMono s (applyOp op s).1 id c c' := by
  cases op with
  | create sender fh signer ws ts =>
    rcases hcr : createCommitment sender fh signer ws ts s with e | ⟨s', evs, nid⟩
    · simp only [applyOp, hcr]
      exact ⟨c, hc, stepMono_refl _ _ _ _ fun w => rfl⟩
    · simp only [applyOp, hcr]
      obtain ⟨_, _, _, _, _, hr⟩ := createCommitment_ok_shape hcr
      simp only [Prod.mk.injEq] at hr
      obtain ⟨hrs, _, _⟩ := hr
      subst hrs
      have hne : id ≠ s.commitmentIdCounter + 1 := by
        have := ((hs.validIff id).1 ⟨c, hc⟩).2
        omega
      refine ⟨c, ?_, stepMono_refl _ _ _ _ fun w => rfl⟩
      rw [setCommitment_commitments_ne _ _ hne]
      exact hc
  | signSigner sender tid ts =>
    rcases h : signAsSigner sender tid ts s with e | r
    · simp only [applyOp, settle, h]
      exact ⟨c, hc, stepMono_refl _ _ _ _ fun w => rfl⟩
    · simp only [applyOp, settle, h]
      obtain ⟨hp, hv, hfz, hsig, hss, hinit, hr⟩ := signAsSigner_ok_shape h
      subst hr
      have hwss : ∀ j w, (checkCompletion tid ts
          (setCommitment s tid { getStored s tid with signerSigned := true })).1.witnessSigned j w
          = s.witnessSigned j w := by
        intro j w
        rw [(checkCompletion_state tid ts _).2.1]
        rfl
      by_cases hid : id = tid
      · subst hid
        have hgc : getStored s id = c := getStored_of_some hc
        have hrc : ({ getStored s id with signerSigned := true } : Commitment)
            = { c with signerSigned := true } := by rw [hgc]
        obtain ⟨c', hc', hcc⟩ := checkCompletion_target ts
          (setCommitment_commitments_self s id { getStored s id with signerSigned := true })
        refine ⟨c', hc', ?_⟩
        rw [hrc] at hcc
        rcases hcc with rfl | rfl
        · exact ⟨rfl, fun h' => h', fun _ => rfl, fun h' => h', fun h' => h', le_refl _,
            fun w h' => (hwss id w).trans h'⟩
        · exact ⟨rfl, fun h' => h', fun _ => rfl, fun _ => rfl, fun h' => h', le_refl _,
            fun w h' => (hwss id w).trans h'⟩
      · refine ⟨c, ?_, stepMono_refl _ _ _ _ fun w => hwss id w⟩
        exact ((checkCompletion_state tid ts _).2.2.2.2 id hid).trans
          ((setCommitment_commitments_ne _ _ hid).trans hc)
  | signWitness sender tid ts =>
    rcases h : signAsWitness sender tid ts s with e | r
    · simp only [applyOp, settle, h]
      exact ⟨c, hc, stepMono_refl _ _ _ _ fun w => rfl⟩
    · simp only [applyOp, settle, h]
      obtain ⟨hv, hfz, hinit, hwit, hflag, hr⟩ := signAsWitness_ok_shape h
      subst hr
      have hwss : ∀ j w, (checkCompletion tid ts
          (setCommitment
            { s with witnessSigned := fun j a =>
                if j = tid ∧ a = sender then true else s.witnessSigned j a }
            tid
            { getStored s tid with
                witnessSignedCount := (getStored s tid).witnessSignedCount + 1 })).1.witnessSigned j w
          = if j = tid ∧ w = sender then true else s.witnessSigned j w := by
        intro j w
        rw [(checkCompletion_state tid ts _).2.1]
        rfl
      have hwmono : ∀ w, s.witnessSigned id w = true →
          (checkCompletion tid ts
            (setCommitment
              { s with witnessSigned := fun j a =>
                  if j = tid ∧ a = sender then true else s.witnessSigned j a }
              tid
              { getStored s tid with
                  witnessSignedCount := (getStored s tid).witnessSignedCount + 1 })).1.witnessSigned id w
          = true := by
        intro w hw
        rw [hwss id w]
        by_cases hcase : id = tid ∧ w = sender
        · rw [if_pos hcase]
        · rw [if_neg hcase]; exact hw
      by_cases hid : id = tid
      · subst hid
        have hgc : getStored s id = c := getStored_of_some hc
        have hrc : ({ getStored s id with
              witnessSignedCount := (getStored s id).witnessSignedCount + 1 } : Commitment)
            = { c with witnessSignedCount := c.witnessSignedCount + 1 } := by rw [hgc]
        obtain ⟨c', hc', hcc⟩ := checkCompletion_target ts
          (setCommitment_commitments_self
            { s with witnessSigned := fun j a =>
                if j = id ∧ a = sender then true else s.witnessSigned j a }
            id
            { getStored s id with
                witnessSignedCount := (getStored s id).witnessSignedCount + 1 })
        refine ⟨c', hc', ?_⟩
        rw [hrc] at hcc
        rcases hcc with rfl | rfl
        · exact ⟨rfl, fun h' => h', fun h' => h', fun h' => h', fun h' => h',
            Nat.le_succ _, hwmono⟩
        · exact ⟨rfl, fun h' => h', fun h' => h', fun _ => rfl, fun h' => h',
            Nat.le_succ _, hwmono⟩
      · refine ⟨c, ?_,
          ⟨rfl, fun h' => h', fun h' => h', fun h' => h', fun h' => h', le_refl _, hwmono⟩⟩
        exact ((checkCompletion_state tid ts _).2.2.2.2 id hid).trans
          ((setCommitment_commitments_ne _ _ hid).trans hc)
  | freeze sender tid ts =>
    rcases h : freezeCommitment sender tid ts s with e | r
    · simp only [applyOp, settle, h]
      exact ⟨c, hc, stepMono_refl _ _ _ _ fun w => rfl⟩
    · simp only [applyOp, settle, h]
      obtain ⟨hv, hfz, hr⟩ := freezeCommitment_ok_shape h
      subst hr
      by_cases hid : id = tid
      · subst hid
        have hg : getStored s id = c := getStored_of_some hc
        rw [hg]
        exact ⟨{ c with isFrozen := true }, setCommitment_commitments_self _ _ _,
          ⟨rfl, fun h => h, fun h => h, fun h => h, fun h => h, le_refl _, fun w h => h⟩⟩
      · refine ⟨c, ?_, stepMono_refl _ _ _ _ fun w => rfl⟩
        rw [setCommitment_commitments_ne _ _ hid]
        exact hc
  | unfreeze sender tid ts =>
    rcases h : unfreezeCommitment sender tid ts s with e | r
    · simp only [applyOp, settle, h]
      exact ⟨c, hc, stepMono_refl _ _ _ _ fun w => rfl⟩
    · simp only [applyOp, settle, h]
      obtain ⟨hv, hfz, hr⟩ := unfreezeCommitment_ok_shape h
      subst hr
      by_cases hid : id = tid
      · subst hid
        have hg : getStored s id = c := getStored_of_some hc
        rw [hg]
        exact ⟨{ c with isFrozen := false }, setCommitment_commitments_self _ _ _,
          ⟨rfl, fun h => h, fun h => h, fun h => h, fun h => h, le_refl _, fun w h => h⟩⟩
      · refine ⟨c, ?_, stepMono_refl _ _ _ _ fun w => rfl⟩
        rw [setCommitment_commitments_ne _ _ hid]
        exact hc
  | verify sender tid ts =>
    rcases h : verifyCommitment sender tid ts s with e | r
    · simp only [applyOp, settle, h]
      exact ⟨c, hc, stepMono_refl _ _ _ _ fun w => rfl⟩
    · simp only [applyOp, settle, h]
      obtain ⟨hv, hnv, hcomp, hr⟩ := verifyCommitment_ok_shape h
      subst hr
      by_cases hid : id = tid
      · subst hid
        have hg : getStored s id = c := getStored_of_some hc
        rw [hg]
        exact ⟨{ c with isVerified := true }, setCommitment_commitments_self _ _ _,
          ⟨rfl, fun h => h, fun h => h, fun h => h, fun _ => rfl, le_refl _, fun w h => h⟩⟩
      · refine ⟨c, ?_, stepMono_refl _ _ _ _ fun w => rfl⟩
        rw [setCommitment_commitments_ne _ _ hid]
        exact hc
  | pauseOp sender =>
    rcases h : pause sender s with e | r
    · simp only [applyOp, settle, h]
      exact ⟨c, hc, stepMono_refl _ _ _ _ fun w => rfl⟩
    · simp only [applyOp, settle, h]
      obtain ⟨_, _, hr⟩ := pause_ok_shape h
      subst hr
      exact ⟨c, hc, stepMono_refl _ _ _ _ fun w => rfl⟩
  | unpauseOp sender =>
    rcases h : unpause sender s with e | r
    · simp only [applyOp, settle, h]
      exact ⟨c, hc, stepMono_refl _ _ _ _ fun w => rfl⟩
    · simp only [applyOp, settle, h]
      obtain ⟨_, _, hr⟩ := unpause_ok_shape h
      subst hr
      exact ⟨c, hc, stepMono_refl _ _ _ _ fun w => rfl⟩
  | grant sender role account =>
    rcases h : grantRole sender role account s with e | r
    · simp only [applyOp, settle, h]
      exact ⟨c, hc, stepMono_refl _ _ _ _ fun w => rfl⟩
    · simp only [applyOp, settle, h]
      have hr := grantRole_ok_shape h
      subst hr
      exact ⟨c, hc, stepMono_refl _ _ _ _ fun w => rfl⟩
  | revoke sender role account =>
    rcases h : revokeRole sender role account s with e | r
    · simp only [applyOp, settle, h]
      exact ⟨c, hc, stepMono_refl _ _ _ _ fun w => rfl⟩
    · simp only [applyOp, settle, h]
      have hr := revokeRole_ok_shape h
      subst hr
      exact ⟨c, hc, stepMono_refl _ _ _ _ fun w => rfl⟩

theorem reachable_run {s : ChainState} (h : Reachable s) (ops : List Op) :
    Reachable (run ops s).1 := by
  induction ops generalizing s with
  | nil => exact h
  | cons op rest ih => exact ih (Reachable.step op s h)

/-- Monotonicity over a whole sequence of operations. -/
theorem run_mono (ops : List Op) {s : ChainState} (hs : Reachable s) {id : Nat}
    {c : Commitment} (hc : s.commitments id = some c) :
    ∃ c', (run ops s).1.commitments id = some c' ∧
      StepMono s (run ops s).1 id c c' := by
  induction ops generalizing s c with
  | nil => exact ⟨c, hc, stepMono_refl _ _ _ _ fun w => rfl⟩
  | cons op rest ih =>
    obtain ⟨c1, hc1, h1⟩ := step_mono op (reachable_inv hs) hc
    obtain ⟨c2, hc2, h2⟩ := ih (Reachable.step op s hs) hc1
    exact ⟨c2, hc2, stepMono_trans h1 h2⟩

/-! ### The id counter and the ids returned by successful creations -/

theorem applyOp_counter_le (op : Op) (s : ChainState) :
    s.commitmentIdCounter ≤ (applyOp op s).1.commitmentIdCounter := by
  cases op with
  | create sender fh signer ws ts =>
    rcases hcr : createCommitment sender fh signer ws ts s with e | ⟨s', evs, nid⟩
    · simp only [applyOp, hcr]
      exact le_refl _
    · simp only [applyOp, hcr]
      obtain ⟨_, _, _, _, _, hr⟩ := createCommitment_ok_shape hcr
      simp only [Prod.mk.injEq] at hr
      obtain ⟨hrs, _, _⟩ := hr
      subst hrs
      exact Nat.le_succ _
  | signSigner sender tid ts =>
    rcases h : signAsSigner sender tid ts s with e | r
    · simp only [applyOp, settle, h]; exact le_refl _
    · simp only [applyOp, settle, h]
      obtain ⟨_, _, _, _, _, _, hr⟩ := signAsSigner_ok_shape h
      subst hr
      exact le_of_eq (Eq.symm (checkCompletion_state tid ts
        (setCommitment s tid { getStored s tid with signerSigned := true })).1)
  | signWitness sender tid ts =>
    rcases h : signAsWitness sender tid ts s with e | r
    · simp only [applyOp, settle, h]; exact le_refl _
    · simp only [applyOp, settle, h]
      obtain ⟨_, _, _, _, _, hr⟩ := signAsWitness_ok_shape h
      subst hr
      exact le_of_eq (Eq.symm (checkCompletion_state tid ts
        (setCommitment
          { s with witnessSigned := fun j a =>
              if j = tid ∧ a = sender then true else s.witnessSigned j a }
          tid
          { getStored s tid with
              witnessSignedCount := (getStored s tid).witnessSignedCount + 1 })).1)
  | freeze sender tid ts =>
    rcases h : freezeCommitment sender tid ts s with e | r
    · simp only [applyOp, settle, h]; exact le_refl _
    · simp only [applyOp, settle, h]
      obtain ⟨_, _, hr⟩ := freezeCommitment_ok_shape h
      subst hr
      exact le_refl _
  | unfreeze sender tid ts =>
    rcases h : unfreezeCommitment sender tid ts s with e | r
    · simp only [applyOp, settle, h]; exact le_refl _
    · simp only [applyOp, settle, h]
      obtain ⟨_, _, hr⟩ := unfreezeCommitment_ok_shape h
      subst hr
      exact le_refl _
  | verify sender tid ts =>
    rcases h : verifyCommitment sender tid ts s with e | r
    · simp only [applyOp, settle, h]; exact le_refl _
    · simp only [applyOp, settle, h]
      obtain ⟨_, _, _, hr⟩ := verifyCommitment_ok_shape h
      subst hr
      exact le_refl _
  | pauseOp sender =>
    rcases h : pause sender s with e | r
    · simp only [applyOp, settle, h]; exact le_refl _
    · simp only [applyOp, settle, h]
      obtain ⟨_, _, hr⟩ := pause_ok_shape h
      subst hr
      exact le_refl _
  | unpauseOp sender =>
    rcases h : unpause sender s with e | r
    · simp only [applyOp, settle, h]; exact le_refl _
    · simp only [applyOp, settle, h]
      obtain ⟨_, _, hr⟩ := unpause_ok_shape h
      subst hr
      exact le_refl _
  | grant sender role account =>
    rcases h : grantRole sender role account s with e | r
    · simp only [applyOp, settle, h]; exact le_refl _
    · simp only [applyOp, settle, h]
      have hr := grantRole_ok_shape h
      subst hr
      exact le_refl _
  | revoke sender role account =>
    rcases h : revokeRole sender role account s with e | r
    · simp only [applyOp, settle, h]; exact le_refl _
    · simp only [applyOp, settle, h]
      have hr := revokeRole_ok_shape h
      subst hr
      exact le_refl _

/-- Every id a sequence of calls returns is strictly above the counter the
sequence started from. -/
theorem runIds_gt (ops : List Op) :
    ∀ (s : ChainState), ∀ i ∈ runIds ops s, s.commitmentIdCounter < i := by
  induction ops with
  | nil =>
    intro s i hi
    cases hi
  | cons op rest ih =>
    intro s i hi
    have hle := applyOp_counter_le op s
    cases op with
    | create sender fh signer ws ts =>
      rcases hcr : createCommitment sender fh signer ws ts s with e | ⟨s', evs, nid⟩
      · simp only [runIds, hcr, List.nil_append] at hi
        exact Nat.lt_of_le_of_lt hle (ih _ i hi)
      · simp only [runIds, hcr, List.singleton_append] at hi
        obtain ⟨_, _, _, _, _, hr⟩ := createCommitment_ok_shape hcr
        simp only [Prod.mk.injEq] at hr
        obtain ⟨hrs, hre, hrn⟩ := hr
        rcases List.mem_cons.1 hi with rfl | hi'
        · omega
        · exact Nat.lt_of_le_of_lt hle (ih _ i hi')
    | signSigner sender tid ts =>
      simp only [runIds, List.nil_append] at hi
      exact Nat.lt_of_le_of_lt hle (ih _ i hi)
    | signWitness sender tid ts =>
      simp only [runIds, List.nil_append] at hi
      exact Nat.lt_of_le_of_lt hle (ih _ i hi)
    | freeze sender tid ts =>
      simp only [runIds, List.nil_append] at hi
      exact Nat.lt_of_le_of_lt hle (ih _ i hi)
    | unfreeze sender tid ts =>
      simp only [runIds, List.nil_append] at hi
      exact Nat.lt_of_le_of_lt hle (ih _ i hi)
    | verify sender tid ts =>
      simp only [runIds, List.nil_append] at hi
      exact Nat.lt_of_le_of_lt hle (ih _ i hi)
    | pauseOp sender =>
      simp only [runIds, List.nil_append] at hi
      exact Nat.lt_of_le_of_lt hle (ih _ i hi)
    | unpauseOp sender =>
      simp only [runIds, List.nil_append] at hi
      exact Nat.lt_of_le_of_lt hle (ih _ i hi)
    | grant sender role account =>
      simp only [runIds, List.nil_append] at hi
      exact Nat.lt_of_le_of_lt hle (ih _ i hi)
    | revoke sender role account =>
      simp only [runIds, List.nil_append] at hi
      exact Nat.lt_of_le_of_lt hle (ih _ i hi)

/-- The returned creation ids are pairwise strictly increasing in order. -/
theorem runIds_pairwise (ops : List Op) :
    ∀ (s : ChainState), (runIds ops s).Pairwise (· < ·) := by
  induction ops with
  | nil =>
    intro s
    exact List.Pairwise.nil
  | cons op rest ih =>
    intro s
    cases op with
    | create sender fh signer ws ts =>
      rcases hcr : createCommitment sender fh signer ws ts s with e | ⟨s', evs, nid⟩
      · simp only [runIds, hcr, List.nil_append]
        exact ih _
      · simp only [runIds, hcr, List.singleton_append]
        obtain ⟨_, _, _, _, _, hr⟩ := createCommitment_ok_shape hcr
        simp only [Prod.mk.injEq] at hr
        obtain ⟨hrs, hre, hrn⟩ := hr
        refine List.Pairwise.cons ?_ (ih _)
        intro i hi
        have := runIds_gt rest _ i hi
        have hcnt : (applyOp (Op.create sender fh signer ws ts) s).1.commitmentIdCounter
            = s.commitmentIdCounter + 1 := by
          simp only [applyOp, hcr]
          rw [hrs]
          rfl
        omega
    | signSigner sender tid ts =>
      simp only [runIds, List.nil_append]
      exact ih _
    | signWitness sender tid ts =>
      simp only [runIds, List.nil_append]
      exact ih _
    | freeze sender tid ts =>
      simp only [runIds, List.nil_append]
      exact ih _
    | unfreeze sender tid ts =>
      simp only [runIds, List.nil_append]
      exact ih _
    | verify sender tid ts =>
      simp only [runIds, List.nil_append]
      exact ih _
    | pauseOp sender =>
      simp only [runIds, List.nil_append]
      exact ih _
    | unpauseOp sender =>
      simp only [runIds, List.nil_append]
      exact ih _
    | grant sender role account =>
      simp only [runIds, List.nil_append]
      exact ih _
    | revoke sender role account =>
      simp only [runIds, List.nil_append]
      exact ih _

/-! ### Counting `CommitmentCompleted` events along a trace -/

theorem completedEvCount_append (l1 l2 : List Event) (id : Nat) :
    completedEvCount (l1 ++ l2) id = completedEvCount l1 id + completedEvCount l2 id := by
  simp [completedEvCount, List.filter_append]

theorem completedEvCount_nil (id : Nat) : completedEvCount [] id = 0 := rfl

theorem completedEvCount_completed (tid ts id : Nat) :
    completedEvCount [Event.CommitmentCompleted tid ts] id = if tid = id then 1 else 0 := by
  by_cases h : tid = id
  · subst h
    simp [completedEvCount]
  · simp [completedEvCount, h]

theorem completedEvCount_cons_signed (i sn : Nat) (role : String) (ts : Nat)
    (l : List Event) (id : Nat) :
    completedEvCount (Event.CommitmentSigned i sn role ts :: l) id
      = completedEvCount l id := rfl


theorem completedFlag_congr {s s' : ChainState} {id : Nat}
    (h : s'.commitments id = s.commitments id) :
    completedFlag s' id = completedFlag s id := by
  unfold completedFlag
  rw [h]

/-- `_checkCompletion` emits exactly the change of the completion flag,
provided the target record is not completed yet. -/
theorem evflag_checkCompletion {s1 : ChainState} {id : Nat} (ts : Nat) {c1 : Commitment}
    (hsome : s1.commitments id = some c1) (hnc : c1.isCompleted = false) (j : Nat) :
    completedFlag (checkCompletion id ts s1).1 j
      = completedFlag s1 j + completedEvCount (checkCompletion id ts s1).2 j := by
  rcases hcond : completionCond c1 with _ | _
  · rw [checkCompletion_cond_false ts hsome hcond]
    simp [completedEvCount]
  · rw [checkCompletion_cond_true ts hsome hcond]
    by_cases hj : j = id
    · subst hj
      unfold completedFlag
      rw [setCommitment_commitments_self, hsome, completedEvCount_completed, if_pos rfl]
      simp [hnc]
    · unfold completedFlag
      rw [setCommitment_commitments_ne _ _ hj, completedEvCount_completed,
        if_neg fun hx => hj hx.symm, Nat.add_zero]

/-- One step changes the per-id completion flag by exactly the number of
`CommitmentCompleted` events it emits for that id. -/
theorem step_evCount (op : Op) {s : ChainState} (hs : Inv s) (id : Nat) :
    completedFlag (applyOp op s).1 id
      = completedFlag s id + completedEvCount (applyOp op s).2 id := by
  cases op with
  | create sender fh signer ws ts =>
    rcases hcr : createCommitment sender fh signer ws ts s with e | ⟨s', evs, nid⟩
    · simp only [applyOp, hcr, completedEvCount_nil, Nat.add_zero]
    · simp only [applyOp, hcr]
      obtain ⟨_, _, _, _, _, hr⟩ := createCommitment_ok_shape hcr
      simp only [Prod.mk.injEq] at hr
      obtain ⟨hrs, hre, hrn⟩ := hr
      subst hrs
      subst hre
      rw [show completedEvCount
          [Event.CommitmentCreated (s.commitmentIdCounter + 1) sender signer fh ts,
           Event.CommitmentSigned (s.commitmentIdCounter + 1) sender "initiator" ts] id
          = 0 from rfl]
      by_cases hj : id = s.commitmentIdCounter + 1
      · subst hj
        have hnone : s.commitments (s.commitmentIdCounter + 1) = none := by
          rcases hh : s.commitments (s.commitmentIdCounter + 1) with _ | c
          · rfl
          · have := ((hs.validIff _).1 ⟨c, hh⟩).2
            omega
        unfold completedFlag
        rw [setCommitment_commitments_self, hnone]
        simp [createdCommitment]
      · rw [Nat.add_zero]
        exact completedFlag_congr (setCommitment_commitments_ne _ _ hj)
  | signSigner sender tid ts =>
    rcases h : signAsSigner sender tid ts s with e | r
    · simp only [applyOp, settle, h, completedEvCount_nil, Nat.add_zero]
    · simp only [applyOp, settle, h]
      obtain ⟨hp, hv, hfz, hsig, hss, hinit, hr⟩ := signAsSigner_ok_shape h
      subst hr
      obtain ⟨c, hc⟩ := (hs.validIff tid).2 hv
      have hgc : getStored s tid = c := getStored_of_some hc
      have hko := hs.ok tid c hc
      have hss' : c.signerSigned = false := hgc ▸ hss
      have hncomp : c.isCompleted = false := by
        rw [hko.completedIff, completionCond, hss']
        simp
      have hrc : ({ getStored s tid with signerSigned := true } : Commitment)
          = { c with signerSigned := true } := by rw [hgc]
      rw [hrc]
      have hsome1 : (setCommitment s tid { c with signerSigned := true }).commitments tid
          = some { c with signerSigned := true } := setCommitment_commitments_self _ _ _
      have hnc1 : ({ c with signerSigned := true } : Commitment).isCompleted = false := hncomp
      have hflag1 : completedFlag (setCommitment s tid { c with signerSigned := true }) id
          = completedFlag s id := by
        by_cases hj : id = tid
        · subst hj
          unfold completedFlag
          rw [setCommitment_commitments_self, hc]
        · exact completedFlag_congr (setCommitment_commitments_ne _ _ hj)
      rw [completedEvCount_cons_signed, evflag_checkCompletion ts hsome1 hnc1 id, hflag1]
  | signWitness sender tid ts =>
    rcases h : signAsWitness sender tid ts s with e | r
    · simp only [applyOp, settle, h, completedEvCount_nil, Nat.add_zero]
    · simp only [applyOp, settle, h]
      obtain ⟨hv, hfz, hinit, hwit, hflag, hr⟩ := signAsWitness_ok_shape h
      subst hr
      obtain ⟨c, hc⟩ := (hs.validIff tid).2 hv
      have hgc : getStored s tid = c := getStored_of_some hc
      have hko := hs.ok tid c hc
      have hmem : sender ∈ c.witnesses := by
        rw [isWitness, hgc] at hwit
        simpa using hwit
      have hlt : c.witnessSignedCount < c.witnesses.length := by
        rw [hko.countEq]
        exact length_filter_lt_of_mem_false hmem hflag
      have hncomp : c.isCompleted = false := by
        rw [hko.completedIff, completionCond]
        have hbe : (c.witnessSignedCount == c.witnesses.length) = false := by
          simp [Nat.ne_of_lt hlt]
        simp [hbe]
      have hrc : ({ getStored s tid with
            witnessSignedCount := (getStored s tid).witnessSignedCount + 1 } : Commitment)
          = { c with witnessSignedCount := c.witnessSignedCount + 1 } := by rw [hgc]
      rw [hrc]
      set sm : ChainState :=
        { s with witnessSigned := fun j a =>
            if j = tid ∧ a = sender then true else s.witnessSigned j a } with hsm
      have hsome1 : (setCommitment sm tid
            { c with witnessSignedCount := c.witnessSignedCount + 1 }).commitments tid
          = some { c with witnessSignedCount := c.witnessSignedCount + 1 } :=
        setCommitment_commitments_self _ _ _
      have hnc1 : ({ c with witnessSignedCount := c.witnessSignedCount + 1 } : Commitment).isCompleted
          = false := hncomp
      have hflag1 : completedFlag (setCommitment sm tid
            { c with witnessSignedCount := c.witnessSignedCount + 1 }) id
          = completedFlag s id := by
        by_cases hj : id = tid
        · subst hj
          unfold completedFlag
          rw [setCommitment_commitments_self,
            show sm.commitments id = s.commitments id from rfl, hc]
        · rw [completedFlag_congr (setCommitment_commitments_ne _ _ hj)]
          exact completedFlag_congr rfl
      rw [completedEvCount_cons_signed, evflag_checkCompletion ts hsome1 hnc1 id, hflag1]
  | freeze sender tid ts =>
    rcases h : freezeCommitment sender tid ts s with e | r
    · simp only [applyOp, settle, h, completedEvCount_nil, Nat.add_zero]
    · simp only [applyOp, settle, h]
      obtain ⟨hv, hfz, hr⟩ := freezeCommitment_ok_shape h
      subst hr
      rw [show completedEvCount [Event.CommitmentFrozen tid sender ts] id = 0 from rfl,
        Nat.add_zero]
      by_cases hj : id = tid
      · obtain ⟨c, hc⟩ := (hs.validIff tid).2 hv
        have hgc : getStored s tid = c := getStored_of_some hc
        rw [hgc]
        subst hj
        unfold completedFlag
        rw [setCommitment_commitments_self, hc]
      · exact completedFlag_congr (setCommitment_commitments_ne _ _ hj)
  | unfreeze sender tid ts =>
    rcases h : unfreezeCommitment sender tid ts s with e | r
    · simp only [applyOp, settle, h, completedEvCount_nil, Nat.add_zero]
    · simp only [applyOp, settle, h]
      obtain ⟨hv, hfz, hr⟩ := unfreezeCommitment_ok_shape h
      subst hr
      rw [show completedEvCount [Event.CommitmentUnfrozen tid sender ts] id = 0 from rfl,
        Nat.add_zero]
      by_cases hj : id = tid
      · obtain ⟨c, hc⟩ := (hs.validIff tid).2 hv
        have hgc : getStored s tid = c := getStored_of_some hc
        rw [hgc]
        subst hj
        unfold completedFlag
        rw [setCommitment_commitments_self, hc]
      · exact completedFlag_congr (setCommitment_commitments_ne _ _ hj)
  | verify sender tid ts =>
    rcases h : verifyCommitment sender tid ts s with e | r
    · simp only [applyOp, settle, h, completedEvCount_nil, Nat.add_zero]
    · simp only [applyOp, settle, h]
      obtain ⟨hv, hnv, hcomp, hr⟩ := verifyCommitment_ok_shape h
      subst hr
      rw [show completedEvCount [Event.CommitmentVerified tid sender ts] id = 0 from rfl,
        Nat.add_zero]
      by_cases hj : id = tid
      · obtain ⟨c, hc⟩ := (hs.validIff tid).2 hv
        have hgc : getStored s tid = c := getStored_of_some hc
        rw [hgc]
        subst hj
        unfold completedFlag
        rw [setCommitment_commitments_self, hc]
      · exact completedFlag_congr (setCommitment_commitments_ne _ _ hj)
  | pauseOp sender =>
    rcases h : pause sender s with e | r
    · simp only [applyOp, settle, h, completedEvCount_nil, Nat.add_zero]
    · simp only [applyOp, settle, h]
      obtain ⟨_, _, hr⟩ := pause_ok_shape h
      subst hr
      rw [completedEvCount_nil, Nat.add_zero]
      exact completedFlag_congr rfl
  | unpauseOp sender =>
    rcases h : unpause sender s with e | r
    · simp only [applyOp, settle, h, completedEvCount_nil, Nat.add_zero]
    · simp only [applyOp, settle, h]
      obtain ⟨_, _, hr⟩ := unpause_ok_shape h
      subst hr
      rw [completedEvCount_nil, Nat.add_zero]
      exact completedFlag_congr rfl
  | grant sender role account =>
    rcases h : grantRole sender role account s with e | r
    · simp only [applyOp, settle, h, completedEvCount_nil, Nat.add_zero]
    · simp only [applyOp, settle, h]
      have hr := grantRole_ok_shape h
      subst hr
      rw [completedEvCount_nil, Nat.add_zero]
      exact completedFlag_congr rfl
  | revoke sender role account =>
    rcases h : revokeRole sender role account s with e | r
    · simp only [applyOp, settle, h, completedEvCount_nil, Nat.add_zero]
    · simp only [applyOp, settle, h]
      have hr := revokeRole_ok_shape h
      subst hr
      rw [completedEvCount_nil, Nat.add_zero]
      exact completedFlag_congr rfl

theorem reachableLog_reachable {s : ChainState} {log : List Event}
    (h : ReachableLog s log) : Reachable s := by
  induction h with
  | init admin ha => exact Reachable.init admin ha
  | step op s log hlog ih => exact Reachable.step op s ih

/-- Along a whole trace, the number of `CommitmentCompleted` events per id
equals the current completion flag of that id. -/
theorem reachableLog_evCount {s : ChainState} {log : List Event}
    (h : ReachableLog s log) (id : Nat) :
    completedEvCount log id = completedFlag s id := by
  induction h with
  | init admin ha => rfl
  | step op s log hlog ih =>
    rw [completedEvCount_append, ih,
      step_evCount op (reachable_inv (reachableLog_reachable hlog)) id]

/-! ### Constructive success and failure lemmas for single calls -/

theorem createCommitment_ok_of {s : ChainState} {sender : Nat} {fh : String}
    {signer : Nat} {ws : List Nat} (ts : Nat) (hfh : fh ≠ "") (hs0 : signer ≠ 0)
    (hss : signer ≠ sender) (hw : ∀ w ∈ ws, w ≠ 0 ∧ w ≠ signer) (hnd : ws.Nodup) :
    createCommitment sender fh signer ws ts s
      = .ok (setCommitment { s with commitmentIdCounter := s.commitmentIdCounter + 1 }
              (s.commitmentIdCounter + 1)
              (createdCommitment sender fh signer ws ts (s.commitmentIdCounter + 1)),
            [Event.CommitmentCreated (s.commitmentIdCounter + 1) sender signer fh ts,
             Event.CommitmentSigned (s.commitmentIdCounter + 1) sender "initiator" ts],
            s.commitmentIdCounter + 1) := by
  have h1 : createCommitment sender fh signer ws ts s
      = .ok ((checkCompletion (s.commitmentIdCounter + 1) ts
                (setCommitment { s with commitmentIdCounter := s.commitmentIdCounter + 1 }
                  (s.commitmentIdCounter + 1)
                  (createdCommitment sender fh signer ws ts (s.commitmentIdCounter + 1)))).1,
             [Event.CommitmentCreated (s.commitmentIdCounter + 1) sender signer fh ts,
              Event.CommitmentSigned (s.commitmentIdCounter + 1) sender "initiator" ts]
               ++ (checkCompletion (s.commitmentIdCounter + 1) ts
                (setCommitment { s with commitmentIdCounter := s.commitmentIdCounter + 1 }
                  (s.commitmentIdCounter + 1)
                  (createdCommitment sender fh signer ws ts (s.commitmentIdCounter + 1)))).2,
             s.commitmentIdCounter + 1) := by
    unfold createCommitment
    rw [if_neg hfh, if_neg hs0, if_neg hss, (checkWitnesses_ok_iff signer ws).2 ⟨hw, hnd⟩]
    rfl
  rw [h1, checkCompletion_cond_false ts
    (setCommitment_commitments_self { s with commitmentIdCounter := s.commitmentIdCounter + 1 }
      (s.commitmentIdCounter + 1)
      (createdCommitment sender fh signer ws ts (s.commitmentIdCounter + 1)))
    (by simp [completionCond, createdCommitment])]
  simp

theorem freezeCommitment_ok_of {s : ChainState} {id : Nat} {c : Commitment} (sender ts : Nat)
    (hv : validCommitmentId s id) (hc : s.commitments id = some c)
    (hf : c.isFrozen = false) :
    freezeCommitment sender id ts s
      = .ok (setCommitment s id { c with isFrozen := true },
             [Event.CommitmentFrozen id sender ts]) := by
  simp only [freezeCommitment, getStored_of_some hc]
  rw [if_pos hv, if_neg (by simp [hf])]

theorem freezeCommitment_frozen_error {s : ChainState} {id : Nat} {c : Commitment}
    (sender ts : Nat) (hv : validCommitmentId s id) (hc : s.commitments id = some c)
    (hf : c.isFrozen = true) :
    freezeCommitment sender id ts s = .error "CommitmentChain: Already frozen" := by
  simp only [freezeCommitment, getStored_of_some hc]
  rw [if_pos hv, if_pos hf]

theorem unfreezeCommitment_ok_of {s : ChainState} {id : Nat} {c : Commitment} (sender ts : Nat)
    (hv : validCommitmentId s id) (hc : s.commitments id = some c)
    (hf : c.isFrozen = true) :
    unfreezeCommitment sender id ts s
      = .ok (setCommitment s id { c with isFrozen := false },
             [Event.CommitmentUnfrozen id sender ts]) := by
  simp only [unfreezeCommitment, getStored_of_some hc]
  rw [if_pos hv, if_neg (by simp [hf])]

theorem unfreezeCommitment_not_frozen_error {s : ChainState} {id : Nat} {c : Commitment}
    (sender ts : Nat) (hv : validCommitmentId s id) (hc : s.commitments id = some c)
    (hf : c.isFrozen = false) :
    unfreezeCommitment sender id ts s = .error "CommitmentChain: Not frozen" := by
  simp only [unfreezeCommitment, getStored_of_some hc]
  rw [if_pos hv, if_pos (by simp [hf])]

theorem verifyCommitment_ok_of {s : ChainState} {id : Nat} {c : Commitment} (sender ts : Nat)
    (hv : validCommitmentId s id) (hc : s.commitments id = some c)
    (hcomp : c.isCompleted = true) (hnv : c.isVerified = false) :
    verifyCommitment sender id ts s
      = .ok (setCommitment s id { c with isVerified := true },
             [Event.CommitmentVerified id sender ts]) := by
  simp only [verifyCommitment, getStored_of_some hc]
  rw [if_pos hv, if_neg (by simp [hnv]), if_neg (by simp [hcomp])]

theorem signAsSigner_frozen_error {s : ChainState} {id : Nat} {c : Commitment}
    (sender ts : Nat) (hp : s.paused = false) (hv : validCommitmentId s id)
    (hc : s.commitments id = some c) (hf : c.isFrozen = true) :
    signAsSigner sender id ts s = .error "CommitmentChain: Commitment is frozen" := by
  simp only [signAsSigner, isFrozenAt, getStored_of_some hc]
  rw [if_neg (by simp [hp]), if_pos hv, if_pos hf]

theorem signAsWitness_frozen_error {s : ChainState} {id : Nat} {c : Commitment}
    (sender ts : Nat) (hv : validCommitmentId s id)
    (hc : s.commitments id = some c) (hf : c.isFrozen = true) :
    signAsWitness sender id ts s = .error "CommitmentChain: Commitment is frozen" := by
  simp only [signAsWitness, isFrozenAt, getStored_of_some hc]
  rw [if_pos hv, if_pos hf]

/-! ### The claims -/

/-- C1: over every operation sequence starting from an initialised registry,
the `CommitmentCompleted` notification is emitted at most once per commitment
id; `isCompleted` never reverts from `true` to `false` (so it flips
false-to-true at most once); and any step that flips it leaves the record with
`initiatorSigned`, `signerSigned`, and `witnessSignedCount` equal to the
witness-list length. -/
theorem claim1_completion_once {s : ChainState} {log : List Event}
    (h : ReachableLog s log) (id : Nat) :
    completedEvCount log id ≤ 1
    ∧ (∀ op c c', s.commitments id = some c →
        (applyOp op s).1.commitments id = some c' →
        c.isCompleted = true → c'.isCompleted = true)
    ∧ (∀ op c c', s.commitments id = some c →
        (applyOp op s).1.commitments id = some c' →
        c.isCompleted = false → c'.isCompleted = true →
        c'.initiatorSigned = true ∧ c'.signerSigned = true ∧
          c'.witnessSignedCount = c'.witnesses.length) := by
  have hreach := reachableLog_reachable h
  have hinv := reachable_inv hreach
  refine ⟨?_, ?_, ?_⟩
  · rw [reachableLog_evCount h id]
    unfold completedFlag
    rcases s.commitments id with _ | c
    · exact Nat.zero_le 1
    · show (if c.isCompleted = true then 1 else 0) ≤ 1
      split_ifs <;> omega
  · intro op c c' hc hc' hcomp
    obtain ⟨c2, hc2, hm⟩ := step_mono op hinv hc
    rw [hc2] at hc'
    injection hc' with hcc
    subst hcc
    exact hm.2.2.2.1 hcomp
  · intro op c c' hc hc' hf ht
    have hinv' := inv_applyOp op hinv
    have hko' := hinv'.ok id c' hc'
    have hcond : completionCond c' = true := by rw [← hko'.completedIff, ht]
    rw [completionCond] at hcond
    simp only [Bool.and_eq_true, beq_iff_eq] at hcond
    exact ⟨hcond.1.1, hcond.1.2, hcond.2⟩

/-- Witness for C1 at a concrete two-step trace (create, then the signer
signs, completing commitment 1). -/
theorem claim1_completion_once_witness :
    completedEvCount (([] ++ (applyOp (Op.create 3 "h" 4 [] 0) (initState 1)).2)
      ++ (applyOp (Op.signSigner 4 1 0)
            (applyOp (Op.create 3 "h" 4 [] 0) (initState 1)).1).2) 1 ≤ 1 :=
  (claim1_completion_once
    (ReachableLog.step (Op.signSigner 4 1 0) _ _
      (ReachableLog.step (Op.create 3 "h" 4 [] 0) _ _
        (ReachableLog.init 1 (by decide)))) 1).1

/-- C2 (code_bug evidence): the shipped `createCommitment` has its
`onlyRole(POLICE_ROLE)` and `whenNotPaused` modifiers commented out, so with
the registry paused and a caller holding no role at all, creation still
succeeds and returns id 1, contradicting the spec, the function's own doc
comment, and the test suite. -/
theorem claim2_create_ignores_role_and_pause :
    (run [Op.grant 1 Role.emergency 2, Op.pauseOp 2] (initState 1)).1.paused = true
    ∧ (run [Op.grant 1 Role.emergency 2, Op.pauseOp 2] (initState 1)).1.hasRole
        Role.police 3 = false
    ∧ (createCommitment 3 "h" 4 [] 0
        (run [Op.grant 1 Role.emergency 2, Op.pauseOp 2] (initState 1)).1).toOption.map
        (fun r => r.2.2) = some 1
    ∧ (getCommitment 1 (applyOp (Op.create 3 "h" 4 [] 0)
        (run [Op.grant 1 Role.emergency 2, Op.pauseOp 2] (initState 1)).1).1).toOption.map
        (fun c => c.fileHash) = some "h" :=
  ⟨rfl, rfl, rfl, rfl⟩

/-- C3: while a commitment is frozen, both signing entry points are rejected
with no state change, freezing again fails, and unfreezing succeeds changing
only the `isFrozen` field; while it is not frozen, unfreezing fails and
freezing succeeds changing only the `isFrozen` field. -/
theorem claim3_freeze_frame {s : ChainState} (hreach : Reachable s)
    (sender id ts : Nat) {c : Commitment} (hc : s.commitments id = some c) :
    (c.isFrozen = true →
      applyOp (Op.signSigner sender id ts) s = (s, [])
      ∧ applyOp (Op.signWitness sender id ts) s = (s, [])
      ∧ freezeCommitment sender id ts s = .error "CommitmentChain: Already frozen"
      ∧ applyOp (Op.freeze sender id ts) s = (s, [])
      ∧ unfreezeCommitment sender id ts s
          = .ok (setCommitment s id { c with isFrozen := false },
                 [Event.CommitmentUnfrozen id sender ts]))
    ∧ (c.isFrozen = false →
      unfreezeCommitment sender id ts s = .error "CommitmentChain: Not frozen"
      ∧ applyOp (Op.unfreeze sender id ts) s = (s, [])
      ∧ freezeCommitment sender id ts s
          = .ok (setCommitment s id { c with isFrozen := true },
                 [Event.CommitmentFrozen id sender ts])) := by
  have hinv := reachable_inv hreach
  have hv : validCommitmentId s id := (hinv.validIff id).1 ⟨c, hc⟩
  constructor
  · intro hfz
    have hss : applyOp (Op.signSigner sender id ts) s = (s, []) := by
      rcases hp : s.paused with _ | _
      · have herr := signAsSigner_frozen_error sender ts hp hv hc hfz
        simp [applyOp, settle, herr]
      · have herr : signAsSigner sender id ts s = .error "EnforcedPause" := by
          unfold signAsSigner
          rw [if_pos hp]
        simp [applyOp, settle, herr]
    have hsw : applyOp (Op.signWitness sender id ts) s = (s, []) := by
      have herr := signAsWitness_frozen_error sender ts hv hc hfz
      simp [applyOp, settle, herr]
    have hfe := freezeCommitment_frozen_error sender ts hv hc hfz
    exact ⟨hss, hsw, hfe, by simp [applyOp, settle, hfe],
      unfreezeCommitment_ok_of sender ts hv hc hfz⟩
  · intro hfz
    have hue := unfreezeCommitment_not_frozen_error sender ts hv hc hfz
    exact ⟨hue, by simp [applyOp, settle, hue],
      freezeCommitment_ok_of sender ts hv hc hfz⟩

/-- Witness for C3 at a concrete frozen commitment (created and then
frozen). -/
theorem claim3_freeze_frame_witness :
    applyOp (Op.signSigner 4 1 5)
        (run [Op.create 3 "h" 4 [] 0, Op.freeze 9 1 0] (initState 1)).1
      = ((run [Op.create 3 "h" 4 [] 0, Op.freeze 9 1 0] (initState 1)).1, [])
    ∧ freezeCommitment 8 1 5 (run [Op.create 3 "h" 4 [] 0, Op.freeze 9 1 0] (initState 1)).1
      = .error "CommitmentChain: Already frozen" := by
  have hcmem : (run [Op.create 3 "h" 4 [] 0, Op.freeze 9 1 0] (initState 1)).1.commitments 1
      = some { id := 1, initiator := 3, signer := 4, witnesses := [], fileHash := "h",
               createdAt := 0, initiatorSigned := true, signerSigned := false,
               witnessSignedCount := 0, isCompleted := false, isFrozen := true,
               isVerified := false } := by decide
  have hre : Reachable (run [Op.create 3 "h" 4 [] 0, Op.freeze 9 1 0] (initState 1)).1 :=
    Reachable.step (Op.freeze 9 1 0) _
      (Reachable.step (Op.create 3 "h" 4 [] 0) _ (Reachable.init 1 (by decide)))
  have hfr := claim3_freeze_frame hre 4 1 5 hcmem
  have hfr2 := claim3_freeze_frame hre 8 1 5 hcmem
  exact ⟨(hfr.1 rfl).1, (hfr2.1 rfl).2.2.1⟩

/-- C4 (code_bug evidence): the shipped `verifyCommitment` has its
`onlyRole(VERIFIER_ROLE)` modifier commented out, so a caller holding no
role verifies a completed commitment successfully, contradicting the spec
and the function's own doc comment.  (The completion gating and the
once-only behaviour themselves hold; the role restriction does not.) -/
theorem claim4_verify_no_role_check :
    (run [Op.create 3 "h" 4 [] 0, Op.signSigner 4 1 0] (initState 1)).1.hasRole
        Role.verifier 5 = false
    ∧ (getStored (run [Op.create 3 "h" 4 [] 0, Op.signSigner 4 1 0] (initState 1)).1 1).isCompleted
        = true
    ∧ (verifyCommitment 5 1 0
        (run [Op.create 3 "h" 4 [] 0, Op.signSigner 4 1 0] (initState 1)).1).toOption.map
        (fun r => (getStored r.1 1).isVerified) = some true
    ∧ (verifyCommitment 5 1 0 (applyOp (Op.verify 5 1 0)
        (run [Op.create 3 "h" 4 [] 0, Op.signSigner 4 1 0] (initState 1)).1).1)
        = .error "CommitmentChain: Already verified" :=
  ⟨rfl, rfl, rfl, rfl⟩

/-- C5 (counterexample): the claim says creation fails whenever a witness
equals the caller; in the shipped code that check is commented out, and this
creation with witness list `[3]` by sender `3` succeeds, storing the
commitment with the caller in its witness list and returning id 1. -/
theorem claim5_counterexample :
    (createCommitment 3 "h" 4 [3] 0 (initState 1)).toOption.map
      (fun r => ((getStored r.1 1).witnesses, r.2.2)) = some ([3], 1) := rfl

/-- C5 (amended): `createCommitment` does not reject a witness equal to the
caller; whenever the live checks pass (non-empty hash, nonzero signer distinct
from the caller, witnesses nonzero, distinct from the signer and pairwise
distinct), creation succeeds even with the caller in the witness list, and
the stored record keeps that witness list. -/
theorem claim5_initiator_witness_accepted {s : ChainState} {sender : Nat} {fh : String}
    {signer : Nat} {ws : List Nat} (ts : Nat) (hfh : fh ≠ "") (hs0 : signer ≠ 0)
    (hss : signer ≠ sender) (hw : ∀ w ∈ ws, w ≠ 0 ∧ w ≠ signer) (hnd : ws.Nodup)
    (hmem : sender ∈ ws) :
    ∃ s' evs, createCommitment sender fh signer ws ts s
        = .ok (s', evs, s.commitmentIdCounter + 1)
      ∧ s'.commitments (s.commitmentIdCounter + 1)
          = some (createdCommitment sender fh signer ws ts (s.commitmentIdCounter + 1))
      ∧ sender ∈ (createdCommitment sender fh signer ws ts (s.commitmentIdCounter + 1)).witnesses :=
  ⟨_, _, createCommitment_ok_of ts hfh hs0 hss hw hnd,
    setCommitment_commitments_self _ _ _, hmem⟩

/-- Witness for C5's amended statement at sender 3, signer 4, witness list
`[3]` (the caller itself), over the freshly initialised registry. -/
theorem claim5_initiator_witness_accepted_witness :
    ∃ s' evs, createCommitment 3 "h" 4 [3] 0 (initState 1) = .ok (s', evs, 1)
      ∧ s'.commitments 1 = some (createdCommitment 3 "h" 4 [3] 0 1)
      ∧ 3 ∈ (createdCommitment 3 "h" 4 [3] 0 1).witnesses :=
  claim5_initiator_witness_accepted 0 (by decide) (by decide) (by decide)
    (by decide) (by decide) (by decide)

/-- C6: each of the six validation violations alone makes `createCommitment`
fail, and a failing creation leaves the state unchanged and emits nothing. -/
theorem claim6_create_validation (s : ChainState) (sender : Nat) (fh : String)
    (signer : Nat) (ws : List Nat) (ts : Nat)
    (hbad : fh = "" ∨ signer = 0 ∨ signer = sender ∨ 0 ∈ ws ∨ signer ∈ ws ∨ ¬ ws.Nodup) :
    (∃ e, createCommitment sender fh signer ws ts s = .error e)
    ∧ applyOp (Op.create sender fh signer ws ts) s = (s, []) := by
  have herr : ∃ e, createCommitment sender fh signer ws ts s = .error e := by
    rcases hres : createCommitment sender fh signer ws ts s with e | r
    · exact ⟨e, rfl⟩
    · exfalso
      obtain ⟨h1, h2, h3, hall, hnd, _⟩ := createCommitment_ok_shape hres
      rcases hbad with hb | hb | hb | hb | hb | hb
      · exact h1 hb
      · exact h2 hb
      · exact h3 hb
      · exact (hall 0 hb).1 rfl
      · exact (hall signer hb).2 rfl
      · exact hb hnd
  obtain ⟨e, he⟩ := herr
  exact ⟨⟨e, he⟩, by simp [applyOp, he]⟩

/-- Witness for C6: an empty fingerprint alone is rejected atomically on the
freshly initialised registry. -/
theorem claim6_create_validation_witness :
    (∃ e, createCommitment 3 "" 4 [] 0 (initState 1) = .error e)
    ∧ applyOp (Op.create 3 "" 4 [] 0) (initState 1) = (initState 1, []) :=
  claim6_create_validation (initState 1) 3 "" 4 [] 0 (Or.inl rfl)

/-- C7: over every operation sequence from a reachable state, an existing
commitment keeps its witness list; `initiatorSigned`, `signerSigned`,
`isCompleted`, `isVerified` and every per-witness signed flag never revert
from `true`; `witnessSignedCount` never decreases and stays bounded by the
witness-list length. -/
theorem claim7_signatures_monotonic {s : ChainState} (hreach : Reachable s)
    (ops : List Op) {id : Nat} {c : Commitment} (hc : s.commitments id = some c) :
    ∃ c', (run ops s).1.commitments id = some c'
      ∧ c'.witnesses = c.witnesses
      ∧ (c.initiatorSigned = true → c'.initiatorSigned = true)
      ∧ (c.signerSigned = true → c'.signerSigned = true)
      ∧ (c.isCompleted = true → c'.isCompleted = true)
      ∧ (c.isVerified = true → c'.isVerified = true)
      ∧ c.witnessSignedCount ≤ c'.witnessSignedCount
      ∧ (∀ w, s.witnessSigned id w = true → (run ops s).1.witnessSigned id w = true)
      ∧ c'.witnessSignedCount ≤ c'.witnesses.length := by
  obtain ⟨c', hc', hm⟩ := run_mono ops hreach hc
  have hinv' := reachable_inv (reachable_run hreach ops)
  exact ⟨c', hc', hm.1, hm.2.1, hm.2.2.1, hm.2.2.2.1, hm.2.2.2.2.1,
    hm.2.2.2.2.2.1, hm.2.2.2.2.2.2, (hinv'.ok id c' hc').countLe⟩

/-- Witness for C7 at a freshly created commitment and a two-step
continuation (signer signs, then a stray freeze). -/
theorem claim7_signatures_monotonic_witness :
    ∃ c', (run [Op.signSigner 4 1 0, Op.freeze 9 1 0]
          (applyOp (Op.create 3 "h" 4 [] 0) (initState 1)).1).1.commitments 1 = some c'
      ∧ c'.witnesses = ([] : List Nat)
      ∧ (true = true → c'.initiatorSigned = true)
      ∧ (false = true → c'.signerSigned = true)
      ∧ (false = true → c'.isCompleted = true)
      ∧ (false = true → c'.isVerified = true)
      ∧ 0 ≤ c'.witnessSignedCount
      ∧ (∀ w, (applyOp (Op.create 3 "h" 4 [] 0) (initState 1)).1.witnessSigned 1 w = true →
          (run [Op.signSigner 4 1 0, Op.freeze 9 1 0]
            (applyOp (Op.create 3 "h" 4 [] 0) (initState 1)).1).1.witnessSigned 1 w = true)
      ∧ c'.witnessSignedCount ≤ c'.witnesses.length := by
  have h := claim7_signatures_monotonic
    (Reachable.step (Op.create 3 "h" 4 [] 0) _ (Reachable.init 1 (by decide)))
    [Op.signSigner 4 1 0, Op.freeze 9 1 0]
    (show (applyOp (Op.create 3 "h" 4 [] 0) (initState 1)).1.commitments 1
        = some { id := 1, initiator := 3, signer := 4, witnesses := [], fileHash := "h",
                 createdAt := 0, initiatorSigned := true, signerSigned := false,
                 witnessSignedCount := 0, isCompleted := false, isFrozen := false,
                 isVerified := false } from by decide)
  exact h

/-- C8: across any operation sequence the ids returned by the successful
creations are pairwise strictly increasing in emission order (hence unique
and never reused, also across failed creations) and all positive. -/
theorem claim8_ids_strictly_increasing (ops : List Op) (s : ChainState) :
    (runIds ops s).Pairwise (fun a b => a < b) ∧ ∀ i ∈ runIds ops s, 0 < i := by
  refine ⟨runIds_pairwise ops s, fun i hi => ?_⟩
  have := runIds_gt ops s i hi
  omega

/-- C9 (counterexample): the claim as stated — every `validCommitmentId`-
guarded entry point, the signing operations included, rejects an out-of-range
id with the invalid-id failure at every reachable state — is false: at this
reachable paused state, `signAsSigner` with the invalid id 0 is rejected with
the pause failure instead, because its live `whenNotPaused` modifier runs
before `validCommitmentId`. -/
theorem claim9_counterexample :
    Reachable (run [Op.grant 1 Role.emergency 2, Op.pauseOp 2] (initState 1)).1
    ∧ (run [Op.grant 1 Role.emergency 2, Op.pauseOp 2] (initState 1)).1.paused = true
    ∧ ¬ (1 ≤ 0 ∧ 0 ≤ commitmentCount
          (run [Op.grant 1 Role.emergency 2, Op.pauseOp 2] (initState 1)).1)
    ∧ signAsSigner 4 0 0 (run [Op.grant 1 Role.emergency 2, Op.pauseOp 2] (initState 1)).1
        = .error "EnforcedPause"
    ∧ signAsSigner 4 0 0 (run [Op.grant 1 Role.emergency 2, Op.pauseOp 2] (initState 1)).1
        ≠ .error "CommitmentChain: Invalid commitment ID" := by
  have hev : signAsSigner 4 0 0
      (run [Op.grant 1 Role.emergency 2, Op.pauseOp 2] (initState 1)).1
      = .error "EnforcedPause" := rfl
  refine ⟨Reachable.step (Op.pauseOp 2) _
      (Reachable.step (Op.grant 1 Role.emergency 2) _ (Reachable.init 1 (by decide))),
    rfl, by decide, hev, ?_⟩
  intro hcon
  rw [hev] at hcon
  injection hcon with hstr
  exact absurd hstr (by decide)

/-- C9 (amended): at every reachable state an id denotes a stored commitment
exactly when `1 ≤ id ≤ commitmentCount`, the record stored at id `i` carries
`id = i`, and the `validCommitmentId`-guarded entry points `getCommitment`,
`hasWitnessSigned`, `getRole`, `getWitnessCount`, `signAsWitness`,
`freezeCommitment`, `unfreezeCommitment` and `verifyCommitment` reject an
out-of-range id with the invalid-id failure; `signAsSigner`, whose live
pause check runs first, reports the invalid-id failure whenever the registry
is not paused, and still rejects the call (with the pause failure) while
paused. -/
theorem claim9_id_space {s : ChainState} (hreach : Reachable s) :
    (∀ id, (∃ c, s.commitments id = some c) ↔ (1 ≤ id ∧ id ≤ commitmentCount s))
    ∧ (∀ id c, s.commitments id = some c → c.id = id)
    ∧ (∀ id, ¬ (1 ≤ id ∧ id ≤ commitmentCount s) → ∀ sender witness ts,
        getCommitment id s = .error "CommitmentChain: Invalid commitment ID"
        ∧ hasWitnessSigned id witness s = .error "CommitmentChain: Invalid commitment ID"
        ∧ getRole id sender s = .error "CommitmentChain: Invalid commitment ID"
        ∧ getWitnessCount id s = .error "CommitmentChain: Invalid commitment ID"
        ∧ signAsWitness sender id ts s = .error "CommitmentChain: Invalid commitment ID"
        ∧ freezeCommitment sender id ts s = .error "CommitmentChain: Invalid commitment ID"
        ∧ unfreezeCommitment sender id ts s = .error "CommitmentChain: Invalid commitment ID"
        ∧ verifyCommitment sender id ts s = .error "CommitmentChain: Invalid commitment ID"
        ∧ (∃ e, signAsSigner sender id ts s = .error e)
        ∧ (s.paused = false →
            signAsSigner sender id ts s = .error "CommitmentChain: Invalid commitment ID")) := by
  have hinv := reachable_inv hreach
  refine ⟨fun id => hinv.validIff id, fun id c hc => (hinv.ok id c hc).idEq, ?_⟩
  intro id hnv sender witness ts
  have hnv' : ¬ validCommitmentId s id := hnv
  refine ⟨?_, ?_, ?_, ?_, ?_, ?_, ?_, ?_, ?_, ?_⟩
  · unfold getCommitment
    rw [if_neg hnv']
  · unfold hasWitnessSigned
    rw [if_neg hnv']
  · unfold getRole
    rw [if_neg hnv']
  · unfold getWitnessCount
    rw [if_neg hnv']
  · unfold signAsWitness
    rw [if_neg hnv']
  · unfold freezeCommitment
    rw [if_neg hnv']
  · unfold unfreezeCommitment
    rw [if_neg hnv']
  · unfold verifyCommitment
    rw [if_neg hnv']
  · rcases hp : s.paused with _ | _
    · refine ⟨"CommitmentChain: Invalid commitment ID", ?_⟩
      unfold signAsSigner
      rw [if_neg (by simp [hp]), if_neg hnv']
    · refine ⟨"EnforcedPause", ?_⟩
      unfold signAsSigner
      rw [if_pos hp]
  · intro hp
    unfold signAsSigner
    rw [if_neg (by simp [hp]), if_neg hnv']

/-- Witness for C9 at the freshly initialised registry and the out-of-range
id 0. -/
theorem claim9_id_space_witness :
    getCommitment 0 (initState 1) = .error "CommitmentChain: Invalid commitment ID"
    ∧ signAsWitness 5 0 0 (initState 1) = .error "CommitmentChain: Invalid commitment ID" := by
  have h := (claim9_id_space (Reachable.init 1 (by decide))).2.2 0 (by decide) 5 6 0
  exact ⟨h.1, h.2.2.2.2.1⟩

/-- C10: freezing does not block verification: at any reachable state, a
stored commitment that is completed and not yet verified is verified
successfully by any caller regardless of its `isFrozen` flag; the update
touches only `isVerified` (in particular `isFrozen` is preserved). -/
theorem claim10_verify_ignores_frozen {s : ChainState} (hreach : Reachable s)
    (sender ts : Nat) {id : Nat} {c : Commitment} (hc : s.commitments id = some c)
    (hcomp : c.isCompleted = true) (hnv : c.isVerified = false) :
    verifyCommitment sender id ts s
      = .ok (setCommitment s id { c with isVerified := true },
             [Event.CommitmentVerified id sender ts])
    ∧ (setCommitment s id { c with isVerified := true }).commitments id
        = some { c with isVerified := true }
    ∧ ({ c with isVerified := true } : Commitment).isFrozen = c.isFrozen
    ∧ ({ c with isVerified := true } : Commitment).isVerified = true := by
  have hinv := reachable_inv hreach
  have hv := (hinv.validIff id).1 ⟨c, hc⟩
  exact ⟨verifyCommitment_ok_of sender ts hv hc hcomp hnv,
    setCommitment_commitments_self _ _ _, rfl, rfl⟩

/-- Witness for C10 at a concrete completed and frozen commitment. -/
theorem claim10_verify_ignores_frozen_witness :
    (getStored (run [Op.create 3 "h" 4 [] 0, Op.signSigner 4 1 0, Op.freeze 9 1 0]
        (initState 1)).1 1).isFrozen = true
    ∧ verifyCommitment 7 1 9
        (run [Op.create 3 "h" 4 [] 0, Op.signSigner 4 1 0, Op.freeze 9 1 0] (initState 1)).1
      = .ok (setCommitment
              (run [Op.create 3 "h" 4 [] 0, Op.signSigner 4 1 0, Op.freeze 9 1 0]
                (initState 1)).1 1
              { id := 1, initiator := 3, signer := 4, witnesses := [], fileHash := "h",
                createdAt := 0, initiatorSigned := true, signerSigned := true,
                witnessSignedCount := 0, isCompleted := true, isFrozen := true,
                isVerified := true },
             [Event.CommitmentVerified 1 7 9]) := by
  have hcmem : (run [Op.create 3 "h" 4 [] 0, Op.signSigner 4 1 0, Op.freeze 9 1 0]
        (initState 1)).1.commitments 1
      = some { id := 1, initiator := 3, signer := 4, witnesses := [], fileHash := "h",
               createdAt := 0, initiatorSigned := true, signerSigned := true,
               witnessSignedCount := 0, isCompleted := true, isFrozen := true,
               isVerified := false } := by decide
  have hre : Reachable (run [Op.create 3 "h" 4 [] 0, Op.signSigner 4 1 0, Op.freeze 9 1 0]
      (initState 1)).1 :=
    Reachable.step (Op.freeze 9 1 0) _
      (Reachable.step (Op.signSigner 4 1 0) _
        (Reachable.step (Op.create 3 "h" 4 [] 0) _ (Reachable.init 1 (by decide))))
  have h := claim10_verify_ignores_frozen hre 7 9 hcmem rfl rfl
  exact ⟨by decide, h.1⟩

end CommitmentChain
